import Mathlib

/-!
Verification model of the `psql_utils` Python package (Lupino/python-psql-utils).

Shallow embedding conventions:
* Python values that flow through the record layer are modelled by `Val`
  (`None`, `int`, `bool`, `str`, `float`, `list`, `dict`).  Python byte
  strings are represented by `Val.str` because every function in the source
  immediately decodes them (`str(val, 'utf-8')`) and then treats them as text.
* Python floats are kept opaque (`Val.float` carries their textual repr);
  no claim depends on float arithmetic.
* Rows returned by the database driver and keyword-argument dictionaries are
  association lists `List (String × Val)` in insertion order, mirroring the
  ordered dictionaries the driver and Python produce.
* Fallible Python code (KeyError, AttributeError, `raise Exception(...)`) is
  modelled with `Except String`.
* String manipulation is implemented over `List Char` so that every operation
  is executable and provable by structural induction.
-/

namespace PsqlUtils

/-- Model of a Python value as it appears in the record layer. -/
inductive Val where
  | null : Val
  | int (n : Int) : Val
  | bool (b : Bool) : Val
  | str (s : String) : Val
  | float (txt : String) : Val
  | list (xs : List Val) : Val
  | dict (xs : List (String × Val)) : Val

mutual

/-- Executable size of a value, used as a fuel bound for depth recursion. -/
def vSize : Val → Nat
  | Val.null => 1
  | Val.int _ => 1
  | Val.bool _ => 1
  | Val.str _ => 1
  | Val.float _ => 1
  | Val.list xs => 1 + vSizeL xs
  | Val.dict xs => 1 + vSizeD xs

/-- Sum of sizes of a list of values. -/
def vSizeL : List Val → Nat
  | [] => 0
  | x :: xs => vSize x + vSizeL xs

/-- Sum of sizes of the values of an association list. -/
def vSizeD : List (String × Val) → Nat
  | [] => 0
  | (_, v) :: xs => vSize v + vSizeD xs

end

/-- Is this value Python `None`? -/
def Val.isNull : Val → Bool
  | Val.null => true
  | _ => false

/-- First binding of a key in an association list (Python dict lookup). -/
def alGet (d : List (String × Val)) (k : String) : Option Val :=
  match d with
  | [] => none
  | (k2, v) :: rest => if k2 == k then some v else alGet rest k

/-- Python `d.get(k)` squashed through an `is not None` test: yields `none`
both when the key is absent and when the stored value is `None`. -/
def dget (d : List (String × Val)) (k : String) : Option Val :=
  match alGet d k with
  | some Val.null => none
  | o => o

/-- Python `d[k] = v`: overwrite in place if the key exists, else append. -/
def dictSet (d : List (String × Val)) (k : String) (v : Val) :
    List (String × Val) :=
  if (alGet d k).isSome then
    d.map (fun kv => if kv.1 == k then (k, v) else kv)
  else d ++ [(k, v)]

/-- Python `old.update(new)` on dictionaries: keys already in `old` keep
their slot but take the new value; keys only in `new` are appended in the
order of `new`. -/
def dictUpdate (old new : List (String × Val)) : List (String × Val) :=
  old.map (fun kv =>
    match alGet new kv.1 with
    | some v => (kv.1, v)
    | none => kv) ++
  new.filter (fun kv => (alGet old kv.1).isNone)

/-- Pointwise list equality parameterized by an element comparison. -/
def pyEqListAux (eq : Val → Val → Bool) : List Val → List Val → Bool
  | [], [] => true
  | x :: xs, y :: ys => eq x y && pyEqListAux eq xs ys
  | _, _ => false

/-- One-sided dictionary inclusion parameterized by a value comparison:
every key of the first list is bound in the second to an equal value. -/
def pyEqDictAux (eq : Val → Val → Bool) (xs ys : List (String × Val)) :
    Bool :=
  xs.all (fun kv =>
    match alGet ys kv.1 with
    | some w => eq kv.2 w
    | none => false)

/-- Fuel-indexed model of Python `==` on values.  Python treats `bool` as a
subtype of `int` (`True == 1`); dictionaries compare as unordered mappings;
lists compare pointwise.  Opaque floats compare by their representation.
The fuel only bounds the nesting depth and is always instantiated with a
sufficient bound (see `pyEq`). -/
def pyEqF : Nat → Val → Val → Bool
  | 0, _, _ => false
  | fuel + 1, v, w =>
    match v, w with
    | Val.null, Val.null => true
    | Val.int a, Val.int b => a == b
    | Val.int a, Val.bool b => a == (if b then 1 else 0)
    | Val.bool a, Val.int b => (if a then (1 : Int) else 0) == b
    | Val.bool a, Val.bool b => a == b
    | Val.str a, Val.str b => a == b
    | Val.float a, Val.float b => a == b
    | Val.list xs, Val.list ys => pyEqListAux (pyEqF fuel) xs ys
    | Val.dict xs, Val.dict ys =>
        pyEqDictAux (pyEqF fuel) xs ys && pyEqDictAux (pyEqF fuel) ys xs
    | _, _ => false

/-- Model of Python `==` on record-layer values.  The fuel `vSize v + vSize w`
strictly exceeds the nesting depth of both arguments, so the fuel never runs
out on the cases actually compared. -/
def pyEq (v w : Val) : Bool := pyEqF (vSize v + vSize w) v w

/-- Characters of a string (insertion order). -/
def strChars (s : String) : List Char := s.data

/-- Rebuild a string from characters. -/
def chStr (l : List Char) : String := String.mk l

/-- Does the pattern occur as a prefix of the text? -/
def isPrefL : List Char → List Char → Bool
  | [], _ => true
  | _ :: _, [] => false
  | p :: ps, t :: ts => p == t && isPrefL ps ts

/-- Does the pattern occur as a contiguous substring of the text
(Python `text.find(pat) > -1`)? -/
def containsSubL (pat : List Char) : List Char → Bool
  | [] => pat.isEmpty
  | t :: ts => isPrefL pat (t :: ts) || containsSubL pat ts

/-- Python `pat in text` / `text.find(pat) > -1` on strings. -/
def pyContains (text pat : String) : Bool :=
  containsSubL (strChars pat) (strChars text)

/-- Python `s.endswith(suffix)`. -/
def pyEndsWith (s suffix : String) : Bool :=
  isPrefL (strChars suffix).reverse (strChars s).reverse

/-- Python `s.lower()` (ASCII, which is all the source compares). -/
def pyLower (s : String) : String := chStr ((strChars s).map Char.toLower)

/-- Python `s.strip()` on ASCII whitespace. -/
def pyStrip (s : String) : String :=
  chStr ((((strChars s).dropWhile Char.isWhitespace).reverse.dropWhile
    Char.isWhitespace).reverse)

/-- Python `s.split(c)` for a single-character separator: always returns at
least one piece, and `"".split(c) = [""]`. -/
def pySplitChAux (c : Char) : List Char → List Char → List (List Char)
  | [], acc => [acc.reverse]
  | x :: xs, acc =>
    if x == c then acc.reverse :: pySplitChAux c xs []
    else pySplitChAux c xs (x :: acc)

/-- Python `s.split(c)` on strings. -/
def pySplitCh (c : Char) (s : String) : List String :=
  (pySplitChAux c (strChars s) []).map chStr

/-- Python `sep.flatten(parts)`. -/
def joinSep (sep : String) : List String → String
  | [] => ""
  | [x] => x
  | x :: y :: rest => x ++ sep ++ joinSep sep (y :: rest)

/-- Python `s.isdigit()` for ASCII text. -/
def pyIsDigit (s : String) : Bool :=
  !(strChars s).isEmpty && (strChars s).all Char.isDigit

/-- Match of the source regex `^\d+(.\d+)?$` (the dot is unescaped in the
source, so it matches ANY single character): the string is a nonempty run
of digits, optionally followed by one arbitrary character and another
nonempty run of digits. -/
def reNumMatch (s : String) : Bool :=
  let l := strChars s
  (!l.isEmpty && l.all Char.isDigit) ||
  (List.range l.length).any (fun p =>
    decide (1 ≤ p) && (l.take p).all Char.isDigit &&
    decide (p + 2 ≤ l.length) &&
    !(l.drop (p + 1)).isEmpty && (l.drop (p + 1)).all Char.isDigit)

/-- Escape for `json.dumps` string output (quotes and backslashes; the
claims only exercise plain ASCII keys and values). -/
def jsonEscape (s : String) : String :=
  chStr ((strChars s).foldr (fun c acc =>
    if c == '"' then '\\' :: '"' :: acc
    else if c == '\\' then '\\' :: '\\' :: acc
    else c :: acc) [])

/-- Fuel-indexed model of Python `json.dumps` with its default separators
`", "` and `": "`.  The fuel bounds nesting depth and is always called with
a sufficient bound (see `jsonDumps`). -/
def jsonDumpsF : Nat → Val → String
  | 0, _ => ""
  | fuel + 1, v =>
    match v with
    | Val.null => "null"
    | Val.bool b => if b then "true" else "false"
    | Val.int n => toString n
    | Val.float txt => txt
    | Val.str s => "\"" ++ jsonEscape s ++ "\""
    | Val.list xs =>
        "[" ++ joinSep ", " (xs.map (jsonDumpsF fuel)) ++ "]"
    | Val.dict xs =>
        "\x7b" ++
        joinSep ", " (xs.map (fun kv =>
          "\"" ++ jsonEscape kv.1 ++ "\": " ++ jsonDumpsF fuel kv.2)) ++
        "\x7d"

/-- Model of Python `json.dumps` on record-layer values. -/
def jsonDumps (v : Val) : String := jsonDumpsF (vSize v) v

/-- Python `str(val)` as used in f-string interpolation of row ids. -/
def pyStr : Val → String
  | Val.null => "None"
  | Val.int n => toString n
  | Val.bool b => if b then "True" else "False"
  | Val.str s => s
  | Val.float txt => txt
  | Val.list _ => "<list>"
  | Val.dict _ => "<dict>"

/-- Python `s[:-(n)]`: drop the last `n` characters. -/
def strDropRight (s : String) (n : Nat) : String :=
  chStr ((strChars s).take ((strChars s).length - n))

/-!
Filter-compiler pieces shared verbatim between `record.py` and
`record_utils.py` (the two source files contain character-identical copies
of `op_map`, `re_op`, `IGNORE`, `sort_query`, `record_query_to_sql` and
`gen_query`; the per-module `format_key`/`guess_type`/`append_query`
variants are modelled separately below).
-/

/-- The operator-suffix table `op_map` of the source, in source order. -/
def op_map : List (String × String) :=
  [("gt", ">"), ("lt", "<"), ("lte", "<="), ("gte", ">="), ("neq", "!="),
   ("like", " like "), ("unlike", " not like "), ("in", " in "),
   ("match", " ~* "), ("unmatch", " !~* "), ("similar", " similar to "),
   ("unsimilar", " not similar to ")]

/-- Model of `re_op.search(key)` for the source pattern
`_(gt|lt|lte|gte|neq|like|unlike|in|match|unmatch|similar|unsimilar)$`:
`re.search` reports the match starting at the leftmost feasible position,
which (because every alternative is anchored by `$`) is exactly the longest
operator name `op` such that `key` ends with `"_" ++ op`.  `re_op_best` is
one step of the longest-suffix selection. -/
def re_op_best (key : String) (best : Option String) (op : String) :
    Option String :=
  if pyEndsWith key ("_" ++ op) then
    match best with
    | none => some op
    | some b => if b.length < op.length then some op else some b
  else best

def re_op_search (key : String) : Option String :=
  (op_map.map Prod.fst).foldl (re_op_best key) none

/-- One predicate triple `(original key, rendered clause, bound value)` as
appended by `append_query`. -/
abbrev QItem := String × String × Val

/-- Failure modes of the filter compiler: the `EmptyRows` exception of the
source, or a Python-level error (exceptions such as AttributeError or
IndexError that the source would raise on ill-typed input). -/
inductive QErr where
  | emptyRows : QErr
  | pyError (msg : String) : QErr
deriving Repr, DecidableEq

/-- The `sort_query` function (identical in `record.py` and
`record_utils.py`): predicates whose original key occurs in `sort_keys` are
moved to the front, grouped by `sort_keys` order; the relative order within
each group is preserved. -/
def sort_query (query : List QItem) : List String → List QItem
  | [] => query
  | k :: rest =>
      query.filter (fun q => q.1 == k) ++
      sort_query (query.filter (fun q => q.1 != k)) rest

/-- The `record_query_to_sql` function (identical in `record.py` and
`record_utils.py`): joins the rendered clauses with `" AND "`, appending the
raw trailing `part_sql` when nonempty, and flattens the bound values (list
values spliced element-wise, the `__IGNORE__` sentinel dropped, scalars
appended, raw trailing `args` last). -/
def record_query_to_sql (query : List QItem) (part_sql : String)
    (args : List Val) : String × List Val :=
  let new_part_sql := query.map (fun q => q.2.1)
  let new_args := query.foldl (fun acc q =>
    match q.2.2 with
    | Val.list vs => acc ++ vs
    | Val.str s => if s == "__IGNORE__" then acc else acc ++ [Val.str s]
    | v => acc ++ [v]) []
  let with_part := if part_sql == "" then new_part_sql
                   else new_part_sql ++ [part_sql]
  (joinSep " AND " with_part, new_args ++ args)

/-!
Record-layer database model.  A `Row` is a driver-returned row (column name
to value, JSON columns already parsed back into dictionaries by the driver);
a `Table` is the rows of one table in storage order.  `select ... LIMIT 1`
is modelled as the first matching row.
-/

/-- A database row / keyword-argument dictionary. -/
abbrev Row := List (String × Val)

/-- A database table. -/
abbrev Table := List Row

/-- SQL equality matching of a row against `key=%s` clauses: a comparison
with NULL never matches. -/
def rowMatches (r : Row) (cs : List (String × Val)) : Bool :=
  cs.all (fun kv =>
    match alGet r kv.1 with
    | some w => !w.isNull && !kv.2.isNull && pyEq w kv.2
    | none => false)

/-- `select_one(table, ..., 'id=%s', (id,))`: first row with the given id. -/
def getById (t : Table) (i : Int) : Option Row :=
  t.find? (fun r =>
    match alGet r "id" with
    | some (Val.int j) => j == i
    | _ => false)

/-- `select max(id)` over the rows matching the clauses (`NULL` when no row
matches). -/
def maxIdMatching (t : Table) (cs : List (String × Val)) : Option Int :=
  t.foldl (fun acc r =>
    if rowMatches r cs then
      match alGet r "id" with
      | some (Val.int j) =>
        match acc with
        | none => some j
        | some m => some (if m < j then j else m)
      | _ => acc
    else acc) none

/-- The unique-key loop of `get` (`record.py`) and `prepare_get_by_uniq`
(`record_utils.py`) in the configuration used by `save`
(`required_uniq_keys=True`): for each unique key take its value from the
supplied dictionary; a missing/None value sets the max-id flag and is
either skipped (optional key) or raises `"<key> is required"`. -/
def buildUniqClauses (optional_keys : List String) (vals : Row) :
    List String → Except String (Bool × List (String × Val))
  | [] => .ok (false, [])
  | k :: rest =>
    let v := (alGet vals k).getD Val.null
    if v.isNull then
      if optional_keys.contains k then
        match buildUniqClauses optional_keys vals rest with
        | .error e => .error e
        | .ok r => .ok (true, r.2)
      else .error (k ++ " is required")
    else
      match buildUniqClauses optional_keys vals rest with
      | .error e => .error e
      | .ok r => .ok (r.1, (k, v) :: r.2)

/-- The unique-key lookup `get(table, uniq_keys=..., optional_keys=...,
required_uniq_keys=True, ignore_extra_keys=True, **uniq_data)` as invoked
by `save` in `record.py`, and the semantically identical
`prepare_get_by_uniq`-based path of `record_sync.get`: empty `uniq_keys`
yields no row; if any unique value was missing, look up the maximum id among
rows matching the remaining clauses and re-fetch by that id (Python `if not
id` also treats id 0 as absent); otherwise return the first row matching all
clauses. -/
def getByUniq (t : Table) (uniq_keys optional_keys : List String)
    (vals : Row) : Except String (Option Row) :=
  if uniq_keys.isEmpty then .ok none
  else
    match buildUniqClauses optional_keys vals uniq_keys with
    | .error e => .error e
    | .ok r =>
      if r.1 then
        match maxIdMatching t r.2 with
        | none => .ok none
        | some i => if i == 0 then .ok none else .ok (getById t i)
      else .ok (t.find? (fun row => rowMatches row r.2))

/-- Python truthiness of the optional `id` argument (`if id:`): 0 counts as
absent. -/
def idTruthy : Option Int → Bool
  | some i => i != 0
  | none => false

/-- The old-record lookup at the top of `save` (both modules): by id when a
truthy id is supplied (raising when no such record exists), else by the
unique-key values drawn from the supplied data. -/
def lookupOld (t : Table) (id? : Option Int)
    (uniq_keys optional_keys : List String) (data : Row) :
    Except String (Option Row) :=
  if idTruthy id? then
    let i := (id?).getD 0
    match getById t i with
    | none => .error ("update record[" ++ toString i ++
        "], the record is not exists")
    | some r => .ok (some r)
  else
    getByUniq t uniq_keys optional_keys
      (uniq_keys.map (fun k => (k, (dget data k).getD Val.null)))

/-- The `merge_json` function (identical in `record.py` and
`record_utils.py`): a shallow `old.update(new)` when both values are
dictionaries, otherwise the new value replaces the old one. -/
def merge_json (new old : Val) : Val :=
  match new, old with
  | Val.dict n, Val.dict o => Val.dict (dictUpdate o n)
  | _, _ => new

/-- The `merge_sub_json` function (identical in `record.py` and
`record_utils.py`): fold the old sub-dictionaries into the new value,
skipping replace-keys, merging shallowly per sub-key. -/
def merge_sub_json (data0 data1 : Val) (replace_keys : List String) :
    Except String Val :=
  match data0, data1 with
  | Val.dict items0, Val.dict items1 =>
    .ok (Val.dict (items1.foldl (fun acc kv =>
      if replace_keys.contains kv.1 then acc
      else
        match dget acc kv.1 with
        | none => dictSet acc kv.1 kv.2
        | some cur => dictSet acc kv.1 (merge_json cur kv.2)) items0))
  | _, _ => .error "AttributeError: items"

/-- The `make_data` function (identical in `record.py` and
`record_utils.py`): pop the excluded keys out of the data (keeping only
non-None values as top-level columns) and wrap the remainder in a `data`
dictionary. -/
def make_data (data : Row) (exclude_data_keys : List String) : Row :=
  (exclude_data_keys.filterMap (fun k =>
    (dget data k).map (fun v => (k, v)))) ++
  [("data", Val.dict (data.filter (fun kv =>
    !exclude_data_keys.contains kv.1)))]

/-- The `exclude_data_keys` preprocessing at the top of `save`
(`record.py`) and inside `prepare_save` (`record_utils.py`): apply
`make_data` only when the exclude list is nonempty. -/
def dataAfterExclude (exclude_data_keys : List String) (data : Row) : Row :=
  if exclude_data_keys.isEmpty then data
  else make_data data exclude_data_keys

/-- The plain-column change loop of `save` (`record.py`, over `keys`) and
`prepare_save` (`record_utils.py`, over `keys + uniq_keys`): supplied
non-None values are recorded unless the existing record already stores an
equal value; `old[key]` on a missing column raises KeyError. -/
def keysLoopHead (old? : Option Row) (data : Row) (k : String) :
    Except String (Option (String × Val)) :=
  match dget data k with
  | none => .ok none
  | some v =>
    match old? with
    | some o =>
      match alGet o k with
      | none => .error ("KeyError: " ++ k)
      | some w => .ok (if pyEq w v then none else some (k, v))
    | none => .ok (some (k, v))

def keysLoop (old? : Option Row) (data : Row) :
    List String → Except String (List (String × Val))
  | [] => .ok []
  | k :: rest =>
    match keysLoopHead old? data k with
    | .error e => .error e
    | .ok head =>
      match keysLoop old? data rest with
      | .error e => .error e
      | .ok tail =>
        .ok (match head with | some p => p :: tail | none => tail)

/-- The JSON-column loop of `save`/`prepare_save`: a supplied value is
always recorded (no equality skip); against an existing record it is
merged with the stored value via `merge_json` unless the column is a
replace-key; the recorded argument is the `json.dumps` serialization. -/
def jsonLoopHead (old? : Option Row) (replace_keys : List String)
    (data : Row) (k : String) : Except String (Option (String × Val)) :=
  match dget data k with
  | none => .ok none
  | some v =>
    match old? with
    | some o =>
      if replace_keys.contains k then
        .ok (some (k, Val.str (jsonDumps v)))
      else
        match alGet o k with
        | none => .error ("KeyError: " ++ k)
        | some w => .ok (some (k, Val.str (jsonDumps (merge_json v w))))
    | none => .ok (some (k, Val.str (jsonDumps v)))

def jsonLoop (old? : Option Row) (replace_keys : List String) (data : Row) :
    List String → Except String (List (String × Val))
  | [] => .ok []
  | k :: rest =>
    match jsonLoopHead old? replace_keys data k with
    | .error e => .error e
    | .ok head =>
      match jsonLoop old? replace_keys data rest with
      | .error e => .error e
      | .ok tail =>
        .ok (match head with | some p => p :: tail | none => tail)

/-- The sub-JSON-column loop of `save`/`prepare_save`: like the JSON loop
but merging with `merge_sub_json` (which consults the replace-keys
per sub-key and always reads `old[key]`). -/
def subJsonLoopHead (old? : Option Row) (replace_keys : List String)
    (data : Row) (k : String) : Except String (Option (String × Val)) :=
  match dget data k with
  | none => .ok none
  | some v =>
    match old? with
    | some o =>
      match alGet o k with
      | none => .error ("KeyError: " ++ k)
      | some w =>
        match merge_sub_json v w replace_keys with
        | .error e => .error e
        | .ok merged => .ok (some (k, Val.str (jsonDumps merged)))
    | none => .ok (some (k, Val.str (jsonDumps v)))

def subJsonLoop (old? : Option Row) (replace_keys : List String)
    (data : Row) : List String → Except String (List (String × Val))
  | [] => .ok []
  | k :: rest =>
    match subJsonLoopHead old? replace_keys data k with
    | .error e => .error e
    | .ok head =>
      match subJsonLoop old? replace_keys data rest with
      | .error e => .error e
      | .ok tail =>
        .ok (match head with | some p => p :: tail | none => tail)

/-- The `updated_at` auto-stamp of `save`/`prepare_save`: when
`'updated_at' in keys` and no value was supplied, record the current epoch
second. -/
def updatedAtStamp (keys : List String) (data : Row) (now : Int) :
    List (String × Val) :=
  if keys.contains "updated_at" && (dget data "updated_at").isNone then
    [("updated_at", Val.int now)]
  else []

/-- A write statement issued by `save` (SELECT statements of the lookups
are not traced; the claims only quantify over writes). -/
inductive Stmt where
  | update (rkeys : List String) (args : List Val) : Stmt
  | insert (rkeys : List String) (args : List Val) : Stmt

/-- Outcome of one `save` call: the write statements issued, the returned
id (or the raised exception message), and the table afterwards. -/
structure SaveRes where
  stmts : List Stmt
  result : Except String Val
  table : Table

/-- Effect on the table of `UPDATE <table> SET k1=%s, ... WHERE id=%s`. -/
def applyUpdate (t : Table) (rid : Val) (pairs : List (String × Val)) :
    Table :=
  t.map (fun r =>
    match alGet r "id" with
    | some w =>
        if pyEq w rid then
          pairs.foldl (fun rr kv => dictSet rr kv.1 kv.2) r
        else r
    | none => r)

/-- Effect on the table of `INSERT INTO <table> (...) VALUES (...)` with a
database-assigned id `nid`. -/
def applyInsert (t : Table) (pairs : List (String × Val)) (nid : Int) :
    Table :=
  t ++ [pairs ++ [("id", Val.int nid)]]

/-- Shared tail of the update branch of `save` (both modules): return the
existing id without a statement when nothing changed, else issue one UPDATE
whose argument tuple is the changed values followed by the id. -/
def finishUpdate (t : Table) (old : Row) (allPairs : List (String × Val)) :
    SaveRes :=
  match alGet old "id" with
  | none => ⟨[], .error "KeyError: id", t⟩
  | some oid =>
    if allPairs.isEmpty then ⟨[], .ok oid, t⟩
    else
      ⟨[Stmt.update (allPairs.map Prod.fst)
          (allPairs.map Prod.snd ++ [oid])],
       .ok oid, applyUpdate t oid allPairs⟩

namespace Record

/-!
Model of the asynchronous record module `src/psql_utils/record.py`.
-/

/-- The `guess_type` function of `record.py`.  Note the branch order: for
non-string values the `isinstance(val, int)` test comes FIRST, and Python
booleans satisfy it (bool is a subtype of int), so booleans map to
`"int"`; the later `isinstance(val, bool)` branch is unreachable. -/
def guess_type (val : Val) : String :=
  match val with
  | Val.str s =>
      if reNumMatch s then (if pyIsDigit s then "int" else "float")
      else if pyLower s == "true" || pyLower s == "false" then "boolean"
      else ""
  | Val.bool _ => "int"
  | Val.int _ => "int"
  | Val.float _ => "float"
  | _ => ""

/-- The dotted-path branch of `format_key` in `record.py` (the code after
`keys = key.split('.')`).  Python raises IndexError when the path segments
are exhausted before the `keys[-1]` accesses; this is modelled by the
`Except` error case. -/
def format_key_dotted (key : String) (val : Val)
    (json_keys : List String) : Except String String :=
  match pySplitCh '.' key with
  | k0 :: k1 :: rest =>
    let step :=
      if json_keys.contains k0 then some (k0, k1 :: rest)
      else if json_keys.contains k1 then some (k0 ++ "." ++ k1, rest)
      else none
    match step with
    | none => .ok key
    | some (pfx, ks) =>
      let json_types := ["int", "float", "boolean", "text"]
      match ks.getLast? with
      | none => .error "IndexError: list index out of range"
      | some lastk =>
        let tp := if json_types.contains lastk then lastk else ""
        let ks2 := if json_types.contains lastk then ks.dropLast else ks
        let asName := if ks2.contains "as" then (ks2.getLast?).getD "" else ""
        let ks3 := if ks2.contains "as" then ks2.dropLast.dropLast else ks2
        let out := pfx ++ "#>>" ++ "\x27\x7b" ++ joinSep ", " ks3 ++ "\x7d\x27"
        let tp2 := if tp == "" then guess_type val else tp
        let out2 := if tp2 == "" then out
                    else "cast(" ++ out ++ " as " ++ tp2 ++ ")"
        .ok (if asName == "" then out2 else out2 ++ " as " ++ asName)
  | _ => .ok key

/-- The `format_key` function of `record.py`. -/
def format_key (key : String) (val : Val)
    (json_keys keys : List String) : Except String String :=
  if (strChars key).all (fun c => c != '.') then
    if keys.isEmpty then .ok key
    else if keys.contains key then .ok key
    else if !json_keys.contains "data" then .ok key
    else format_key_dotted ("data." ++ key) val json_keys
  else format_key_dotted key val json_keys

/-- The list branch of `append_query` in `record.py`: raise `EmptyRows` on
an empty list, otherwise render `<formatted key> in (%s, ..., %s)` with one
placeholder per element and bind the whole list. -/
def append_query_list (query : List QItem) (key : String) (vs : List Val)
    (json_keys keys : List String) : Except QErr (List QItem) :=
  if vs.isEmpty then .error QErr.emptyRows
  else
    match format_key key (vs.headD Val.null) json_keys keys with
    | .error e => .error (QErr.pyError e)
    | .ok fkey =>
      .ok (query ++ [(key,
        fkey ++ " in (" ++ joinSep ", " (vs.map (fun _ => "%s")) ++ ")",
        Val.list vs)])

/-- The `append_query` function of `record.py`. -/
def append_query (query : List QItem) (key : String) (val : Val)
    (json_keys keys : List String) : Except QErr (List QItem) :=
  match val with
  | Val.null => .ok query
  | Val.list vs => append_query_list query key vs json_keys keys
  | v =>
    let stripped :=
      match re_op_search key with
      | some op =>
          (strDropRight key (op.length + 1), ((op_map.lookup op).getD "="))
      | none => (key, "=")
    let key2 := stripped.1
    let opSql := stripped.2
    if opSql == " in " then
      match v with
      | Val.str s =>
        if pyContains (pyLower s) "select" then
          .ok (query ++
            [(key2, key2 ++ " in (" ++ s ++ ")", Val.str "__IGNORE__")])
        else
          append_query_list query key2
            ((pySplitCh ',' s).map (fun p => Val.str (pyStrip p)))
            json_keys keys
      | _ => .error (QErr.pyError "AttributeError: lower")
    else
      match format_key key2 v json_keys keys with
      | .error e => .error (QErr.pyError e)
      | .ok fkey => .ok (query ++ [(key2, fkey ++ opSql ++ "%s", v)])

/-- The `gen_query` function of `record.py`. -/
def gen_query (args : List Val) (sort_keys : List String) (part_sql : String)
    (json_keys keys : List String) (data : List (String × Val)) :
    Except QErr (String × List Val) := do
  let query ← data.foldlM
    (fun q kv => append_query q kv.1 kv.2 json_keys keys) []
  pure (record_query_to_sql (sort_query query sort_keys) part_sql args)

/-- Model of the `get_list` front end of `record.py` up to the point where
SQL would be executed: `EmptyRows` raised by the filter compiler is caught
and turned into an immediate empty-list result (`none` here, meaning no SQL
is executed); a successful compilation yields the WHERE clause and bound
arguments that `select` would receive; any other Python error propagates. -/
def get_list_plan (args : List Val) (sort_keys : List String)
    (part_sql : String) (json_keys keys : List String)
    (data : List (String × Val)) :
    Except QErr (Option (String × List Val)) :=
  match gen_query args sort_keys part_sql json_keys keys data with
  | .error QErr.emptyRows => .ok none
  | .error e => .error e
  | .ok r => .ok (some r)

/-- The unique-key loop inside the `if id:` update branch of `save` in
`record.py`: for each unique key the prospective value is the supplied one,
falling back to the stored one; changed keys are appended to the UPDATE
columns and set the `uniq_changed` flag; `uniq_full_data` collects the full
prospective unique tuple.  Returns `(uniq_changed, uniq_full_data, appended
pairs)`. -/
def uniqStep (old : Row) (data : Row) :
    List String → Except String (Bool × Row × List (String × Val))
  | [] => .ok (false, [], [])
  | k :: rest =>
    match alGet old k with
    | none => .error ("KeyError: " ++ k)
    | some ow =>
      let v := (dget data k).getD ow
      match uniqStep old data rest with
      | .error e => .error e
      | .ok r =>
        if pyEq ow v then .ok (r.1, (k, v) :: r.2.1, r.2.2)
        else .ok (true, (k, v) :: r.2.1, (k, v) :: r.2.2)

/-- The change-pair computation shared by the three loops of `save`
(`record.py`): plain keys, JSON keys, sub-JSON keys, then the `updated_at`
stamp, in source order. -/
def prepareChangePairs (old? : Option Row)
    (keys json_keys sub_json_keys replace_keys : List String)
    (data : Row) (now : Int) : Except String (List (String × Val)) :=
  match keysLoop old? data keys with
  | .error e => .error e
  | .ok p1 =>
    match jsonLoop old? replace_keys data json_keys with
    | .error e => .error e
    | .ok p2 =>
      match subJsonLoop old? replace_keys data sub_json_keys with
      | .error e => .error e
      | .ok p3 => .ok (p1 ++ p2 ++ p3 ++ updatedAtStamp keys data now)

/-- The `save` function of `record.py` (without the optional `on_saved`
callback, which only runs after all statements and does not affect them).
`now` models `int(time())` and `nid` the id assigned by the database for an
INSERT (`returning id`). -/
def save (t : Table) (id? : Option Int)
    (keys uniq_keys optional_keys json_keys sub_json_keys replace_keys
      exclude_data_keys : List String)
    (data0 : Row) (now : Int) (nid : Int) : SaveRes :=
  let data := dataAfterExclude exclude_data_keys data0
  match lookupOld t id? uniq_keys optional_keys data with
  | .error e => ⟨[], .error e, t⟩
  | .ok old? =>
    match prepareChangePairs old? keys json_keys sub_json_keys replace_keys
        data now with
    | .error e => ⟨[], .error e, t⟩
    | .ok pairs =>
      match old? with
      | some old =>
        match (if idTruthy id? then uniqStep old data uniq_keys
               else .ok (false, [], [])) with
        | .error e => ⟨[], .error e, t⟩
        | .ok (changed, full, upairs) =>
          let allPairs := pairs ++ upairs
          if changed then
            match getByUniq t uniq_keys optional_keys full with
            | .error e => ⟨[], .error e, t⟩
            | .ok (some o1) =>
              match alGet o1 "id" with
              | none => ⟨[], .error "KeyError: id", t⟩
              | some oid =>
                ⟨[], .error ("cant update record uniq value to exists value "
                    ++ pyStr oid), t⟩
            | .ok none => finishUpdate t old allPairs
          else finishUpdate t old allPairs
      | none =>
        let upairs := uniq_keys.filterMap (fun k =>
          (dget data k).map (fun v => (k, v)))
        let cpairs := if keys.contains "created_at" &&
                         (dget data "created_at").isNone then
                        [("created_at", Val.int now)]
                      else []
        let allPairs := pairs ++ upairs ++ cpairs
        ⟨[Stmt.insert (allPairs.map Prod.fst) (allPairs.map Prod.snd)],
         .ok (Val.int nid), applyInsert t allPairs nid⟩

end Record

namespace RecordUtils

/-!
Model of the synchronous helpers `src/psql_utils/record_utils.py`.  The
filter-compiler functions are near-copies of `record.py` with two
differences: `guess_type` tests the `'true'/'false'` strings and
`isinstance(val, bool)` BEFORE the numeric/int checks (so Python booleans
map to `"boolean"` here), and `format_key` returns `'*'` unchanged.
-/

/-- The `guess_type` function of `record_utils.py`. -/
def guess_type (val : Val) : String :=
  match val with
  | Val.str s =>
      if pyLower s == "true" || pyLower s == "false" then "boolean"
      else if reNumMatch s then (if pyIsDigit s then "int" else "float")
      else ""
  | Val.bool _ => "boolean"
  | Val.int _ => "int"
  | Val.float _ => "float"
  | _ => ""

/-- The dotted-path branch of `format_key` in `record_utils.py` (identical
to the `record.py` one except that it calls this module's `guess_type`). -/
def format_key_dotted (key : String) (val : Val)
    (json_keys : List String) : Except String String :=
  match pySplitCh '.' key with
  | k0 :: k1 :: rest =>
    let step :=
      if json_keys.contains k0 then some (k0, k1 :: rest)
      else if json_keys.contains k1 then some (k0 ++ "." ++ k1, rest)
      else none
    match step with
    | none => .ok key
    | some (pfx, ks) =>
      let json_types := ["int", "float", "boolean", "text"]
      match ks.getLast? with
      | none => .error "IndexError: list index out of range"
      | some lastk =>
        let tp := if json_types.contains lastk then lastk else ""
        let ks2 := if json_types.contains lastk then ks.dropLast else ks
        let asName := if ks2.contains "as" then (ks2.getLast?).getD "" else ""
        let ks3 := if ks2.contains "as" then ks2.dropLast.dropLast else ks2
        let out := pfx ++ "#>>" ++ "\x27\x7b" ++ joinSep ", " ks3 ++ "\x7d\x27"
        let tp2 := if tp == "" then guess_type val else tp
        let out2 := if tp2 == "" then out
                    else "cast(" ++ out ++ " as " ++ tp2 ++ ")"
        .ok (if asName == "" then out2 else out2 ++ " as " ++ asName)
  | _ => .ok key

/-- The `format_key` function of `record_utils.py` (note the extra
`if key == '*': return key` early exit that `record.py` lacks). -/
def format_key (key : String) (val : Val)
    (json_keys keys : List String) : Except String String :=
  if key == "*" then .ok key
  else if (strChars key).all (fun c => c != '.') then
    if keys.isEmpty then .ok key
    else if keys.contains key then .ok key
    else if !json_keys.contains "data" then .ok key
    else format_key_dotted ("data." ++ key) val json_keys
  else format_key_dotted key val json_keys

/-- The list branch of `append_query` in `record_utils.py`. -/
def append_query_list (query : List QItem) (key : String) (vs : List Val)
    (json_keys keys : List String) : Except QErr (List QItem) :=
  if vs.isEmpty then .error QErr.emptyRows
  else
    match format_key key (vs.headD Val.null) json_keys keys with
    | .error e => .error (QErr.pyError e)
    | .ok fkey =>
      .ok (query ++ [(key,
        fkey ++ " in (" ++ joinSep ", " (vs.map (fun _ => "%s")) ++ ")",
        Val.list vs)])

/-- The `append_query` function of `record_utils.py`. -/
def append_query (query : List QItem) (key : String) (val : Val)
    (json_keys keys : List String) : Except QErr (List QItem) :=
  match val with
  | Val.null => .ok query
  | Val.list vs => append_query_list query key vs json_keys keys
  | v =>
    let stripped :=
      match re_op_search key with
      | some op =>
          (strDropRight key (op.length + 1), ((op_map.lookup op).getD "="))
      | none => (key, "=")
    let key2 := stripped.1
    let opSql := stripped.2
    if opSql == " in " then
      match v with
      | Val.str s =>
        if pyContains (pyLower s) "select" then
          .ok (query ++
            [(key2, key2 ++ " in (" ++ s ++ ")", Val.str "__IGNORE__")])
        else
          append_query_list query key2
            ((pySplitCh ',' s).map (fun p => Val.str (pyStrip p)))
            json_keys keys
      | _ => .error (QErr.pyError "AttributeError: lower")
    else
      match format_key key2 v json_keys keys with
      | .error e => .error (QErr.pyError e)
      | .ok fkey => .ok (query ++ [(key2, fkey ++ opSql ++ "%s", v)])

/-- The `gen_query` function of `record_utils.py`. -/
def gen_query (args : List Val) (sort_keys : List String) (part_sql : String)
    (json_keys keys : List String) (data : List (String × Val)) :
    Except QErr (String × List Val) := do
  let query ← data.foldlM
    (fun q kv => append_query q kv.1 kv.2 json_keys keys) []
  pure (record_query_to_sql (sort_query query sort_keys) part_sql args)

/-- The `prepare_save` function of `record_utils.py`: like the change
computation of `record.py`'s `save`, except that the plain-column loop runs
over `keys + uniq_keys` (the unique keys are folded into the ordinary
change loop instead of a separate id-branch loop). -/
def prepare_save (keys uniq_keys exclude_data_keys json_keys replace_keys
      sub_json_keys : List String)
    (old? : Option Row) (data0 : Row) (now : Int) :
    Except String (List (String × Val)) :=
  let data := dataAfterExclude exclude_data_keys data0
  match keysLoop old? data (keys ++ uniq_keys) with
  | .error e => .error e
  | .ok p1 =>
    match jsonLoop old? replace_keys data json_keys with
    | .error e => .error e
    | .ok p2 =>
      match subJsonLoop old? replace_keys data sub_json_keys with
      | .error e => .error e
      | .ok p3 => .ok (p1 ++ p2 ++ p3 ++ updatedAtStamp keys data now)

/-- The `get_uniq_data` function of `record_utils.py`: prospective unique
tuple (supplied value, falling back to the stored one when an old record is
given) plus the changed flag. -/
def getUniqDataVal (old? : Option Row) (data : Row) (k : String) :
    Except String Val :=
  match dget data k, old? with
  | none, some o =>
    match alGet o k with
    | some w => .ok w
    | none => .error ("KeyError: " ++ k)
  | none, none => .ok Val.null
  | some v, _ => .ok v

def getUniqDataFlag (old? : Option Row) (k : String) (v : Val) :
    Except String Bool :=
  match old? with
  | none => .ok false
  | some o =>
    match alGet o k with
    | some w => .ok (!(pyEq w v))
    | none => .error ("KeyError: " ++ k)

def get_uniq_data (old? : Option Row) (data : Row) :
    List String → Except String (Bool × Row)
  | [] => .ok (false, [])
  | k :: rest =>
    match getUniqDataVal old? data k with
    | .error e => .error e
    | .ok v =>
      match getUniqDataFlag old? k v with
      | .error e => .error e
      | .ok flag =>
        match get_uniq_data old? data rest with
        | .error e => .error e
        | .ok r => .ok (flag || r.1, (k, v) :: r.2)

end RecordUtils

namespace RecordSync

/-!
Model of the synchronous record module `src/psql_utils/record_sync.py`
(backed by `record_utils.py`).
-/

/-- The `save` function of `record_sync.py` (without the `on_saved`
callback).  Differences from the asynchronous `Record.save`: the
`exclude_data_keys` transformation happens only inside `prepare_save` (the
unique lookups see the original data), the unique keys are folded into the
plain change loop of `prepare_save` (different UPDATE/INSERT column order),
and the `uniq_changed` conflict check runs in both the id and the
unique-lookup branches via `get_uniq_data`. -/
def save (t : Table) (id? : Option Int)
    (keys uniq_keys optional_keys json_keys sub_json_keys replace_keys
      exclude_data_keys : List String)
    (data : Row) (now : Int) (nid : Int) : SaveRes :=
  match lookupOld t id? uniq_keys optional_keys data with
  | .error e => ⟨[], .error e, t⟩
  | .ok old? =>
    match RecordUtils.prepare_save keys uniq_keys exclude_data_keys
        json_keys replace_keys sub_json_keys old? data now with
    | .error e => ⟨[], .error e, t⟩
    | .ok pairs =>
      match old? with
      | some old =>
        match RecordUtils.get_uniq_data (some old) data uniq_keys with
        | .error e => ⟨[], .error e, t⟩
        | .ok (changed, full) =>
          if changed then
            match getByUniq t uniq_keys optional_keys full with
            | .error e => ⟨[], .error e, t⟩
            | .ok (some o1) =>
              match alGet o1 "id" with
              | none => ⟨[], .error "KeyError: id", t⟩
              | some oid =>
                ⟨[], .error ("cant update record uniq value to exists value "
                    ++ pyStr oid), t⟩
            | .ok none => finishUpdate t old pairs
          else finishUpdate t old pairs
      | none =>
        let cpairs := if keys.contains "created_at" &&
                         (dget data "created_at").isNone then
                        [("created_at", Val.int now)]
                      else []
        let allPairs := pairs ++ cpairs
        ⟨[Stmt.insert (allPairs.map Prod.fst) (allPairs.map Prod.snd)],
         .ok (Val.int nid), applyInsert t allPairs nid⟩

end RecordSync

namespace Pool

/-!
Model of the pooled-execution wrapper `run_with_pool` of
`src/psql_utils/__init__.py` (the copy in `sync.py` is line-for-line
identical up to the blocking/suspending call style).  The wrapped body `f`
is modelled by its outcome on each successive invocation (`behav i` is the
outcome of the `i`-th invocation); `_connector.connect()` returns `True`
whenever it returns at all, so a reconnect is modelled as always
succeeding.  Only `RuntimeError` is caught by the source handler.
-/

/-- A failure raised by one invocation of the wrapped body: whether it is a
`RuntimeError` (the only type the handler catches) and its message. -/
structure RunErr where
  isRuntimeError : Bool
  msg : String

/-- Outcome of one invocation of the wrapped body. -/
abbrev Attempt := Except RunErr Val

/-- The retry loop of `run_with_pool`'s inner `run`: invocation `idx` of
the body; on a `RuntimeError` whose message contains `"closing"` and when
no caller-supplied cursor is present, reconnect and recursively re-invoke
`run` (which uses the next invocation of the body); any other failure, or
any failure with a caller-supplied cursor, propagates.  Returns the final
outcome paired with the number of reconnects performed; `none` when `fuel`
invocations were exhausted while still retrying (the source recursion has
no bound). -/
def runAux (hasCur : Bool) (behav : Nat → Attempt) :
    Nat → Nat → Option (Except RunErr Val × Nat)
  | 0, _ => none
  | fuel + 1, idx =>
    match behav idx with
    | .ok v => some (.ok v, idx)
    | .error e =>
      if hasCur then some (.error e, idx)
      else if e.isRuntimeError && pyContains e.msg "closing" then
        runAux hasCur behav fuel (idx + 1)
      else some (.error e, idx)

/-- Entry point of the wrapper: start at invocation 0 with no reconnects
performed yet. -/
def run_with_pool (hasCur : Bool) (behav : Nat → Attempt) (fuel : Nat) :
    Option (Except RunErr Val × Nat) :=
  runAux hasCur behav fuel 0

end Pool

/-!
Verification-side definitions (counting placeholders, classifying values).
-/

/-- Scalar (non-list, non-dict, non-None) values. -/
def isScalar : Val → Bool
  | Val.int _ => true
  | Val.bool _ => true
  | Val.str _ => true
  | Val.float _ => true
  | _ => false

/-- The value never makes `append_query` raise an AttributeError: list,
None and string values are always safe; other scalars are safe unless the
key selects the `in` operator (whose branch calls `.lower()` on the
value). -/
def appendSafe (k : String) (v : Val) : Bool :=
  match v with
  | Val.null => true
  | Val.list _ => true
  | Val.str _ => true
  | Val.dict _ => false
  | _ =>
    match re_op_search k with
    | some op => ((op_map.lookup op).getD "=") != " in "
    | none => true

/-- Number of (non-overlapping) occurrences of the placeholder `%s` in a
character list. -/
def psCountL : List Char → Nat
  | '%' :: 's' :: rest => 1 + psCountL rest
  | _ :: rest => psCountL rest
  | [] => 0

/-- Number of `%s` placeholders in a string. -/
def psCount (s : String) : Nat := psCountL (strChars s)

/-- Number of elements a predicate triple's bound value contributes to the
final argument tuple in `record_query_to_sql`. -/
def argCount : Val → Nat
  | Val.list vs => vs.length
  | Val.str s => if s == "__IGNORE__" then 0 else 1
  | _ => 1

/-!
### Lemmas: strings and the operator-suffix dispatch
-/

theorem strChars_append (a b : String) :
    strChars (a ++ b) = strChars a ++ strChars b := rfl

theorem chStr_strChars (s : String) : chStr (strChars s) = s := rfl

theorem strLen_eq (s : String) : s.length = (strChars s).length := rfl

theorem strChars_inj {a b : String} (h : strChars a = strChars b) : a = b := by
  cases a; cases b; exact congrArg String.mk h

theorem strAppend_assoc (a b c : String) : a ++ b ++ c = a ++ (b ++ c) :=
  strChars_inj (by
    rw [strChars_append, strChars_append, strChars_append, strChars_append,
      List.append_assoc])

theorem isPrefL_self_append (l b : List Char) : isPrefL l (l ++ b) = true := by
  induction l with
  | nil => rfl
  | cons c cs ih => simp [isPrefL, ih]

theorem isPrefL_append_false (p m b : List Char)
    (h : isPrefL (p.take m.length) m = false) :
    isPrefL p (m ++ b) = false := by
  induction m generalizing p with
  | nil => simp [isPrefL] at h
  | cons t ts ih =>
    cases p with
    | nil => simp [isPrefL] at h
    | cons q qs =>
      by_cases hqt : q = t
      · subst hqt
        simp only [List.length_cons, List.take_succ_cons, isPrefL,
          beq_self_eq_true, Bool.true_and] at h ⊢
        exact ih qs h
      · simp [isPrefL, hqt]

theorem isPrefL_trans_of_le (p q r : List Char)
    (hp : isPrefL p r = true) (hq : isPrefL q r = true)
    (hle : p.length ≤ q.length) : isPrefL p q = true := by
  induction r generalizing p q with
  | nil =>
    cases p with
    | nil => rfl
    | cons c cs => simp [isPrefL] at hp
  | cons t ts ih =>
    cases p with
    | nil => rfl
    | cons c cs =>
      cases q with
      | nil => simp at hle
      | cons d ds =>
        simp only [isPrefL, Bool.and_eq_true, beq_iff_eq] at hp hq ⊢
        refine ⟨hp.1.trans hq.1.symm, ih cs ds hp.2 hq.2 ?_⟩
        simpa using hle

theorem take_eq_of_isPrefL (p t : List Char) (h : isPrefL p t = true) :
    t.take p.length = p := by
  induction p generalizing t with
  | nil => simp
  | cons c cs ih =>
    cases t with
    | nil => simp [isPrefL] at h
    | cons d ds =>
      simp only [isPrefL, Bool.and_eq_true, beq_iff_eq] at h
      simp [List.take_succ_cons, h.1.symm, ih ds h.2]

theorem strChars_underscore_append (op : String) :
    strChars ("_" ++ op) = '_' :: strChars op := rfl

theorem underscore_mem_of_nested_suffix (op op2 : String)
    (hlt : (strChars op).length < (strChars op2).length)
    (hpref : isPrefL ((strChars ("_" ++ op)).reverse)
      ((strChars ("_" ++ op2)).reverse) = true) :
    '_' ∈ strChars op2 := by
  rw [strChars_underscore_append, strChars_underscore_append,
    List.reverse_cons, List.reverse_cons] at hpref
  have htake := take_eq_of_isPrefL _ _ hpref
  rw [List.length_append, List.length_reverse] at htake
  simp only [List.length_singleton] at htake
  have hle : (strChars op).length + 1 ≤ ((strChars op2).reverse).length := by
    rw [List.length_reverse]; omega
  rw [List.take_append_of_le_length hle] at htake
  have hmem : '_' ∈ ((strChars op2).reverse).take ((strChars op).length + 1) := by
    rw [htake]; simp
  have := List.take_subset _ _ hmem
  simpa using this

theorem pyEndsWith_def (s p : String) :
    pyEndsWith s p =
      isPrefL (strChars p).reverse (strChars s).reverse := rfl

theorem pyEndsWith_concat_self (base mid : String) :
    pyEndsWith (base ++ mid) mid = true := by
  rw [pyEndsWith_def, strChars_append, List.reverse_append]
  exact isPrefL_self_append _ _

theorem op_map_no_underscore :
    ∀ op ∈ op_map.map Prod.fst, '_' ∉ strChars op := by decide

theorem foldl_re_op_best (key op : String)
    (hmatch : pyEndsWith key ("_" ++ op) = true) :
    ∀ (L : List String) (acc : Option String),
    (acc = none ∨ ∃ b, acc = some b ∧ pyEndsWith key ("_" ++ b) = true ∧
      (b.length < op.length ∨ b = op)) →
    (op ∈ L ∨ acc = some op) →
    (∀ op2 ∈ L, pyEndsWith key ("_" ++ op2) = true →
      op2.length ≤ op.length) →
    (∀ op2 ∈ L, pyEndsWith key ("_" ++ op2) = true →
      op2.length = op.length → op2 = op) →
    L.foldl (re_op_best key) acc = some op := by
  intro L
  induction L with
  | nil =>
    intro acc _ hor _ _
    rcases hor with h | h
    · exact absurd h (List.not_mem_nil _)
    · simpa using h
  | cons op2 L ih =>
    intro acc hacc hor hlen huniq
    simp only [List.foldl_cons]
    refine ih (re_op_best key acc op2) ?_ ?_
      (fun o ho hm => hlen o (List.mem_cons_of_mem _ ho) hm)
      (fun o ho hm he => huniq o (List.mem_cons_of_mem _ ho) hm he)
    all_goals by_cases hm2 : pyEndsWith key ("_" ++ op2) = true
    -- goal 1 (hacc preservation), op2 matches
    · have hlen2 : op2.length ≤ op.length :=
        hlen op2 (List.mem_cons_self _ _) hm2
      rcases hacc with rfl | ⟨b, rfl, hbm, hbl⟩
      · by_cases hop2 : op2 = op
        · exact Or.inr ⟨op2, by simp [re_op_best, hm2], hm2, Or.inr hop2⟩
        · have hne : op2.length ≠ op.length := fun he =>
            hop2 (huniq op2 (List.mem_cons_self _ _) hm2 he)
          exact Or.inr ⟨op2, by simp [re_op_best, hm2], hm2,
            Or.inl (lt_of_le_of_ne hlen2 hne)⟩
      · by_cases hbrep : b.length < op2.length
        · by_cases hop2 : op2 = op
          · exact Or.inr ⟨op2, by simp [re_op_best, hm2, hbrep], hm2,
              Or.inr hop2⟩
          · have hne : op2.length ≠ op.length := fun he =>
              hop2 (huniq op2 (List.mem_cons_self _ _) hm2 he)
            exact Or.inr ⟨op2, by simp [re_op_best, hm2, hbrep], hm2,
              Or.inl (lt_of_le_of_ne hlen2 hne)⟩
        · exact Or.inr ⟨b, by simp [re_op_best, hm2, hbrep], hbm, hbl⟩
    -- goal 1, op2 does not match
    · have hm2f : pyEndsWith key ("_" ++ op2) = false := by
        simpa using hm2
      rcases hacc with rfl | ⟨b, rfl, hbm, hbl⟩
      · exact Or.inl (by simp [re_op_best, hm2f])
      · exact Or.inr ⟨b, by simp [re_op_best, hm2f], hbm, hbl⟩
    -- goal 2 (op reachable), op2 matches
    · have hlen2 : op2.length ≤ op.length :=
        hlen op2 (List.mem_cons_self _ _) hm2
      rcases hor with hin | hsome
      · rcases List.mem_cons.mp hin with rfl | hin2
        · -- op2 = op: the step must produce some op
          rcases hacc with rfl | ⟨b, rfl, hbm, hbl⟩
          · exact Or.inr (by simp [re_op_best, hm2])
          · rcases hbl with hbl | rfl
            · exact Or.inr (by simp [re_op_best, hm2, hbl])
            · by_cases hbrep : b.length < b.length
              · exact absurd hbrep (lt_irrefl _)
              · exact Or.inr (by simp [re_op_best, hm2, hbrep])
        · by_cases hop2 : op2 = op
          · subst hop2
            rcases hacc with rfl | ⟨b, rfl, hbm, hbl⟩
            · exact Or.inr (by simp [re_op_best, hm2])
            · rcases hbl with hbl | rfl
              · exact Or.inr (by simp [re_op_best, hm2, hbl])
              · by_cases hbrep : b.length < b.length
                · exact absurd hbrep (lt_irrefl _)
                · exact Or.inr (by simp [re_op_best, hm2, hbrep])
          · exact Or.inl hin2
      · -- acc = some op already
        rcases hacc with h | ⟨b, hb, hbm, hbl⟩
        · rw [hsome] at h; exact absurd h (by simp)
        · rw [hsome] at hb
          have hbop : b = op := by injection hb.symm
          subst hbop
          have : ¬ b.length < op2.length := by omega
          exact Or.inr (by rw [hsome]; simp [re_op_best, hm2, this])
    -- goal 2, op2 does not match
    · have hm2f : pyEndsWith key ("_" ++ op2) = false := by
        simpa using hm2
      rcases hor with hin | hsome
      · rcases List.mem_cons.mp hin with rfl | hin2
        · exact absurd hmatch (by simp [hm2f])
        · exact Or.inl hin2
      · exact Or.inr (by rw [hsome]; simp [re_op_best, hm2f])

theorem re_op_search_concat (base op sql : String)
    (hmem : (op, sql) ∈ op_map) :
    re_op_search (base ++ "_" ++ op) = some op := by
  have hop : op ∈ op_map.map Prod.fst := by
    exact List.mem_map_of_mem _ hmem
  rw [strAppend_assoc]
  have hmatch : pyEndsWith (base ++ ("_" ++ op)) ("_" ++ op) = true :=
    pyEndsWith_concat_self base ("_" ++ op)
  apply foldl_re_op_best _ op hmatch _ none (Or.inl rfl) (Or.inl hop)
  · intro op2 hop2 hm2
    by_contra hgt
    push_neg at hgt
    have hgt2 : (strChars op).length < (strChars op2).length := by
      rw [← strLen_eq, ← strLen_eq]; exact hgt
    have hnest : isPrefL (strChars ("_" ++ op)).reverse
        (strChars ("_" ++ op2)).reverse = true := by
      apply isPrefL_trans_of_le _ _ ((strChars (base ++ ("_" ++ op))).reverse)
      · rw [← pyEndsWith_def]; exact hmatch
      · rw [← pyEndsWith_def]; exact hm2
      · rw [List.length_reverse, List.length_reverse,
          strChars_underscore_append, strChars_underscore_append]
        simp only [List.length_cons]
        omega
    have hund := underscore_mem_of_nested_suffix op op2 hgt2 hnest
    exact absurd hund (op_map_no_underscore op2 hop2)
  · intro op2 hop2 hm2 hlen2
    have hm2p : isPrefL (strChars ("_" ++ op2)).reverse
        (strChars (base ++ ("_" ++ op))).reverse = true := by
      rw [← pyEndsWith_def]; exact hm2
    have hmp : isPrefL (strChars ("_" ++ op)).reverse
        (strChars (base ++ ("_" ++ op))).reverse = true := by
      rw [← pyEndsWith_def]; exact hmatch
    have h1 := take_eq_of_isPrefL _ _ hm2p
    have h2 := take_eq_of_isPrefL _ _ hmp
    have hlenc : ((strChars ("_" ++ op2)).reverse).length =
        ((strChars ("_" ++ op)).reverse).length := by
      rw [List.length_reverse, List.length_reverse,
        strChars_underscore_append, strChars_underscore_append]
      simp only [List.length_cons]
      rw [← strLen_eq, ← strLen_eq, hlen2]
    rw [hlenc] at h1
    have heq : (strChars ("_" ++ op2)).reverse =
        (strChars ("_" ++ op)).reverse := h1.symm.trans h2
    have heq2 : strChars ("_" ++ op2) = strChars ("_" ++ op) := by
      have := congrArg List.reverse heq
      simpa using this
    rw [strChars_underscore_append, strChars_underscore_append] at heq2
    exact strChars_inj (by injection heq2)

theorem re_op_search_none (key : String)
    (h : ∀ op ∈ op_map.map Prod.fst, pyEndsWith key ("_" ++ op) = false) :
    re_op_search key = none := by
  unfold re_op_search
  have : ∀ (L : List String), (∀ op ∈ L, pyEndsWith key ("_" ++ op) = false) →
      L.foldl (re_op_best key) none = none := by
    intro L
    induction L with
    | nil => intro _; rfl
    | cons o L ih =>
      intro hL
      simp only [List.foldl_cons, re_op_best, hL o (List.mem_cons_self _ _)]
      exact ih (fun o2 ho2 => hL o2 (List.mem_cons_of_mem _ ho2))
  exact this _ h

theorem strDropRight_concat (base op : String) :
    strDropRight (base ++ ("_" ++ op)) (op.length + 1) = base := by
  unfold strDropRight
  rw [strChars_append, strChars_underscore_append, List.length_append,
    List.length_cons]
  rw [strLen_eq op]
  have h3 : (strChars base).length + ((strChars op).length + 1) -
      ((strChars op).length + 1) = (strChars base).length := by omega
  rw [h3, List.take_left, chStr_strChars]

theorem op_map_lookup_self (op sql : String) (hmem : (op, sql) ∈ op_map) :
    op_map.lookup op = some sql := by
  fin_cases hmem <;> rfl

theorem Record.format_key_dotted_nil (key : String) (v : Val) :
    Record.format_key_dotted key v [] = .ok key := by
  unfold Record.format_key_dotted
  cases h : pySplitCh '.' key with
  | nil => rfl
  | cons k0 tail =>
    cases tail with
    | nil => rfl
    | cons k1 rest => simp

theorem Record.format_key_nil (key : String) (v : Val) :
    Record.format_key key v [] [] = .ok key := by
  unfold Record.format_key
  by_cases hdot : (strChars key).all (fun c => c != '.')
  · simp [hdot]
  · simp [hdot, Record.format_key_dotted_nil]

theorem RecordUtils.format_key_dotted_nil_sync (key : String) (v : Val) :
    RecordUtils.format_key_dotted key v [] = .ok key := by
  unfold RecordUtils.format_key_dotted
  cases h : pySplitCh '.' key with
  | nil => rfl
  | cons k0 tail =>
    cases tail with
    | nil => rfl
    | cons k1 rest => simp

theorem RecordUtils.format_key_nil_sync (key : String) (v : Val) :
    RecordUtils.format_key key v [] [] = .ok key := by
  unfold RecordUtils.format_key
  by_cases hstar : key = "*"
  · simp [hstar]
  · have hstar2 : (key == "*") = false := by simpa using hstar
    by_cases hdot : (strChars key).all (fun c => c != '.')
    · simp [hstar2, hdot]
    · simp [hstar2, hdot, RecordUtils.format_key_dotted_nil_sync]

theorem re_op_search_in (base : String) :
    re_op_search (base ++ "_in") = some "in" := by
  show re_op_search (base ++ ("_" ++ "in")) = some "in"
  rw [← strAppend_assoc]
  exact re_op_search_concat base "in" " in " (by simp [op_map])

theorem strDropRight_in (base : String) :
    strDropRight (base ++ "_in") ("in".length + 1) = base :=
  strDropRight_concat base "in"

theorem pySplitChAux_ne_nil (c : Char) (l : List Char) :
    ∀ acc, pySplitChAux c l acc ≠ [] := by
  induction l with
  | nil => intro acc; simp [pySplitChAux]
  | cons x xs ih =>
    intro acc
    by_cases hx : x = c
    · simp [pySplitChAux, hx]
    · simp only [pySplitChAux, hx]
      simp only [show (x == c) = false by simpa using hx, Bool.false_eq_true,
        if_false]
      exact ih _

theorem pySplitCh_ne_nil (c : Char) (s : String) : pySplitCh c s ≠ [] := by
  unfold pySplitCh
  intro h
  have h2 : pySplitChAux c (strChars s) [] = [] := by
    cases hx : pySplitChAux c (strChars s) [] with
    | nil => rfl
    | cons a as => rw [hx] at h; simp at h
  exact pySplitChAux_ne_nil c (strChars s) [] h2

theorem append_query_ok_of_safe (q : List QItem) (k : String) (v : Val)
    (hsafe : appendSafe k v = true) (hne : v ≠ Val.list []) :
    ∃ q2, Record.append_query q k v [] [] = .ok q2 := by
  cases v with
  | null => exact ⟨q, rfl⟩
  | dict xs => simp [appendSafe] at hsafe
  | list vs =>
    have hvs : vs ≠ [] := fun h => hne (by rw [h])
    unfold Record.append_query Record.append_query_list
    dsimp only
    rw [show vs.isEmpty = false by simpa using hvs]
    simp [Record.format_key_nil]
  | str s =>
    unfold Record.append_query
    cases hro : re_op_search k with
    | none =>
      dsimp only
      simp [Record.format_key_nil]
    | some op =>
      by_cases hin : ((op_map.lookup op).getD "=") = " in "
      · dsimp only
        rw [show (((op_map.lookup op).getD "=") == " in ") = true by
          simpa using hin]
        by_cases hsel : pyContains (pyLower s) "select" = true
        · simp [hsel]
        · have hsel2 : pyContains (pyLower s) "select" = false := by
            simpa using hsel
          rw [hsel2]
          unfold Record.append_query_list
          rw [show (((pySplitCh ',' s).map
              (fun p => Val.str (pyStrip p))).isEmpty) = false by
            cases h : pySplitCh ',' s with
            | nil => exact absurd h (pySplitCh_ne_nil ',' s)
            | cons a as => rfl]
          simp [Record.format_key_nil]
      · dsimp only
        rw [show (((op_map.lookup op).getD "=") == " in ") = false by
          simpa using hin]
        simp [Record.format_key_nil]
  | int n =>
    unfold appendSafe at hsafe
    dsimp only at hsafe
    unfold Record.append_query
    cases hro : re_op_search k with
    | none =>
      dsimp only
      simp [Record.format_key_nil]
    | some op =>
      rw [hro] at hsafe
      dsimp only at hsafe
      dsimp only
      rw [show (((op_map.lookup op).getD "=") == " in ") = false by
        simpa using hsafe]
      simp [Record.format_key_nil]
  | bool b =>
    unfold appendSafe at hsafe
    dsimp only at hsafe
    unfold Record.append_query
    cases hro : re_op_search k with
    | none =>
      dsimp only
      simp [Record.format_key_nil]
    | some op =>
      rw [hro] at hsafe
      dsimp only at hsafe
      dsimp only
      rw [show (((op_map.lookup op).getD "=") == " in ") = false by
        simpa using hsafe]
      simp [Record.format_key_nil]
  | float t =>
    unfold appendSafe at hsafe
    dsimp only at hsafe
    unfold Record.append_query
    cases hro : re_op_search k with
    | none =>
      dsimp only
      simp [Record.format_key_nil]
    | some op =>
      rw [hro] at hsafe
      dsimp only at hsafe
      dsimp only
      rw [show (((op_map.lookup op).getD "=") == " in ") = false by
        simpa using hsafe]
      simp [Record.format_key_nil]


/-!
### Lemmas for record_query_to_sql argument flattening
-/

theorem rqts_args_ignore (query : List QItem) (k0 cl : String)
    (ps : String) (args : List Val) :
    (record_query_to_sql (query ++ [(k0, cl, Val.str "__IGNORE__")])
      ps args).2 =
    (record_query_to_sql query ps args).2 := by
  unfold record_query_to_sql
  simp [List.foldl_append]

theorem rqts_args_list (query : List QItem) (k0 cl : String) (vs : List Val)
    (ps : String) (args : List Val) :
    (record_query_to_sql (query ++ [(k0, cl, Val.list vs)]) ps args).2 =
    (record_query_to_sql query ps []).2 ++ vs ++ args := by
  unfold record_query_to_sql
  simp [List.foldl_append]

theorem gen_query_emptyRows (data : List (String × Val)) :
    ∀ q0, (∀ kv ∈ data, appendSafe kv.1 kv.2 = true) →
    (∃ kv ∈ data, kv.2 = Val.list []) →
    data.foldlM (fun q kv => Record.append_query q kv.1 kv.2 [] []) q0 =
      (.error QErr.emptyRows : Except QErr (List QItem)) := by
  induction data with
  | nil => intro q0 _ h; simp at h
  | cons kv rest ih =>
    intro q0 hsafe hex
    by_cases hkv : kv.2 = Val.list []
    · have hh : Record.append_query q0 kv.1 kv.2 [] [] =
          .error QErr.emptyRows := by rw [hkv]; rfl
      rw [List.foldlM_cons, hh]
      rfl
    · obtain ⟨q2, hq2⟩ := append_query_ok_of_safe q0 kv.1 kv.2
        (hsafe kv (List.mem_cons_self _ _)) hkv
      have hex2 : ∃ kv2 ∈ rest, kv2.2 = Val.list [] := by
        rcases hex with ⟨kv2, hmem, hval⟩
        rcases List.mem_cons.mp hmem with rfl | hmem2
        · exact absurd hval hkv
        · exact ⟨kv2, hmem2, hval⟩
      rw [List.foldlM_cons, hq2]
      simpa using ih q2 (fun kv2 h2 => hsafe kv2 (List.mem_cons_of_mem _ h2))
        hex2

/-!
### Lemmas for the pool retry loop
-/

theorem runAux_closing_prefix (behav : Nat → Pool.Attempt) :
    ∀ (j idx : Nat),
    (∀ i, idx ≤ i → i < idx + j → ∃ e, behav i = .error e ∧
      e.isRuntimeError = true ∧ pyContains e.msg "closing" = true) →
    (match behav (idx + j) with
     | .ok _ => True
     | .error e => e.isRuntimeError = false ∨
        pyContains e.msg "closing" = false) →
    Pool.runAux false behav (j + 1) idx = some (behav (idx + j), idx + j) := by
  intro j
  induction j with
  | zero =>
    intro idx hcl hfin
    simp only [Nat.add_zero] at hfin ⊢
    unfold Pool.runAux
    cases hb : behav idx with
    | ok v => rfl
    | error e =>
      rw [hb] at hfin
      dsimp only
      rcases hfin with h | h
      · rw [h]
        rfl
      · rw [h]
        simp
  | succ j ih =>
    intro idx hcl hfin
    obtain ⟨e, hbe, hrt, hcls⟩ := hcl idx (le_refl _) (by omega)
    unfold Pool.runAux
    rw [hbe]
    dsimp only
    rw [hrt, hcls]
    simp only [Bool.and_self, if_true]
    have hsh : idx + (j + 1) = (idx + 1) + j := by omega
    rw [hsh] at hfin ⊢
    exact ih (idx + 1) (fun i h1 h2 => hcl i (by omega) (by omega)) hfin

/-!
### Claim theorems
-/

/-- C10: in the asynchronous record module, `guess_type` maps both Python
booleans to `"int"` (the `isinstance(val, int)` branch precedes the
`isinstance(val, bool)` branch, and Python booleans are integers), so a
JSON-path filter key compared against `True`/`False` without an explicit
type suffix renders with `cast(... as int)`. -/
theorem claim_C10 :
    Record.guess_type (Val.bool true) = "int" ∧
    Record.guess_type (Val.bool false) = "int" ∧
    Record.format_key "data.flag" (Val.bool true) ["data"] [] =
      .ok "cast(data#>>\x27\x7bflag\x7d\x27 as int)" ∧
    Record.format_key "data.flag" (Val.bool false) ["data"] [] =
      .ok "cast(data#>>\x27\x7bflag\x7d\x27 as int)" :=
  ⟨rfl, rfl, rfl, rfl⟩

/-- C5: the filter compiler strips a recognized operator suffix from the
key and uses the mapped operator (default `=` when no suffix matches):
`age_gte`/5 compiles to clause `age>=%s` bound to 5, `name`/"x" compiles to
`name=%s` bound to "x"; in general `<base>_<op>` with a scalar value
compiles to `<base><sql-op>%s` for every entry of the operator table other
than `in`, and a key ending in no recognized suffix keeps `=`. -/
theorem claim_C5 :
    Record.gen_query [] [] "" [] [] [("age_gte", Val.int 5)] =
      .ok ("age>=%s", [Val.int 5]) ∧
    Record.gen_query [] [] "" [] [] [("name", Val.str "x")] =
      .ok ("name=%s", [Val.str "x"]) ∧
    (∀ (base op sql : String) (v : Val), (op, sql) ∈ op_map →
      sql ≠ " in " → isScalar v = true →
      Record.append_query [] (base ++ "_" ++ op) v [] [] =
        .ok [(base, base ++ sql ++ "%s", v)]) ∧
    (∀ (key : String) (v : Val),
      (∀ op ∈ op_map.map Prod.fst, pyEndsWith key ("_" ++ op) = false) →
      isScalar v = true →
      Record.append_query [] key v [] [] = .ok [(key, key ++ "=%s", v)]) := by
  refine ⟨rfl, rfl, ?_, ?_⟩
  · intro base op sql v hmem hnin hscal
    have hro := re_op_search_concat base op sql hmem
    have hlk := op_map_lookup_self op sql hmem
    have hsd : strDropRight (base ++ "_" ++ op) (op.length + 1) = base := by
      rw [strAppend_assoc]; exact strDropRight_concat base op
    have hin : (sql == " in ") = false := by simpa using hnin
    cases v <;> (try simp [isScalar] at hscal) <;>
      (unfold Record.append_query
       rw [hro]
       dsimp only
       rw [hlk]
       dsimp only [Option.getD]
       rw [hsd, hin]
       simp [Record.format_key_nil])
  · intro key v hnone hscal
    have hro := re_op_search_none key hnone
    cases v <;> (try simp [isScalar] at hscal) <;>
      (unfold Record.append_query
       rw [hro]
       dsimp only
       simp [Record.format_key_nil]
       rw [strAppend_assoc, show ((("=" : String) ++ "%s") : String) = "=%s"
         from rfl])

/-- C8: an `_in`-suffixed key with a (non-list) string value containing
"select" in any letter case compiles to the clause `<field> in (<value>)`
with the value inlined verbatim and the `__IGNORE__` sentinel bound (which
contributes nothing to the final argument tuple); an `_in` string value
without that substring is split on commas, each piece stripped, and
compiled as a parameterized IN list whose elements are spliced into the
argument tuple. -/
theorem claim_C8 :
    (∀ (query : List QItem) (base s : String) (json_keys keys : List String),
      pyContains (pyLower s) "select" = true →
      Record.append_query query (base ++ "_in") (Val.str s) json_keys keys =
        .ok (query ++ [(base, base ++ " in (" ++ s ++ ")",
          Val.str "__IGNORE__")])) ∧
    (∀ (query : List QItem) (k0 cl ps : String) (args : List Val),
      (record_query_to_sql (query ++ [(k0, cl, Val.str "__IGNORE__")])
        ps args).2 = (record_query_to_sql query ps args).2) ∧
    (∀ (query : List QItem) (base s : String),
      pyContains (pyLower s) "select" = false →
      Record.append_query query (base ++ "_in") (Val.str s) [] [] =
        .ok (query ++ [(base,
          base ++ " in (" ++
            joinSep ", " ((pySplitCh ',' s).map (fun _ => "%s")) ++ ")",
          Val.list ((pySplitCh ',' s).map
            (fun piece => Val.str (pyStrip piece))))])) ∧
    (∀ (query : List QItem) (k0 cl : String) (vs : List Val)
        (ps : String) (args : List Val),
      (record_query_to_sql (query ++ [(k0, cl, Val.list vs)])
        ps args).2 =
      (record_query_to_sql query ps []).2 ++ vs ++ args) := by
  refine ⟨?_, rqts_args_ignore, ?_, rqts_args_list⟩
  · intro query base s json_keys keys hsel
    unfold Record.append_query
    rw [re_op_search_in base]
    dsimp only
    rw [show (op_map.lookup "in").getD "=" = " in " from rfl]
    rw [strDropRight_in base]
    simp [hsel]
  · intro query base s hsel
    unfold Record.append_query
    rw [re_op_search_in base]
    dsimp only
    rw [show (op_map.lookup "in").getD "=" = " in " from rfl]
    rw [strDropRight_in base]
    simp only [show ((" in " : String) == " in ") = true from rfl, if_true]
    rw [hsel]
    unfold Record.append_query_list
    rw [show (((pySplitCh ',' s).map
        (fun p => Val.str (pyStrip p))).isEmpty) = false by
      cases h : pySplitCh ',' s with
      | nil => exact absurd h (pySplitCh_ne_nil ',' s)
      | cons a as => rfl]
    have hmap : ∀ (l : List String),
        List.map ((fun x => "%s") ∘ fun p => Val.str (pyStrip p)) l =
        List.replicate l.length "%s" := by
      intro l
      induction l with
      | nil => rfl
      | cons a as ih => simp [ih, List.replicate_succ]
    simp [Record.format_key_nil, hmap]

/-- C4: a filter mapping containing an empty-list value makes the filter
compiler raise `EmptyRows` before producing any SQL (other values must not
make the compiler raise a Python type error first, i.e. every `_in` key
must carry a string or list value), and `get_list` catches the exception
and returns an empty result without executing SQL. -/
theorem claim_C4 (data : List (String × Val)) (args : List Val)
    (sort_keys : List String) (part_sql : String)
    (hsafe : ∀ kv ∈ data, appendSafe kv.1 kv.2 = true)
    (hempty : ∃ kv ∈ data, kv.2 = Val.list []) :
    Record.gen_query args sort_keys part_sql [] [] data =
      .error QErr.emptyRows ∧
    Record.get_list_plan args sort_keys part_sql [] [] data = .ok none := by
  have h := gen_query_emptyRows data [] hsafe hempty
  have hg : Record.gen_query args sort_keys part_sql [] [] data =
      .error QErr.emptyRows := by
    unfold Record.gen_query
    rw [h]
    rfl
  exact ⟨hg, by unfold Record.get_list_plan; rw [hg]⟩

/-- C4 witness: a concrete filter with an empty list value short-circuits.
-/
theorem claim_C4_witness :
    Record.gen_query [] [] "" [] []
      [("age", Val.int 3), ("tags", Val.list [])] = .error QErr.emptyRows ∧
    Record.get_list_plan [] [] "" [] []
      [("age", Val.int 3), ("tags", Val.list [])] = .ok none :=
  claim_C4 [("age", Val.int 3), ("tags", Val.list [])] [] [] ""
    (by intro kv hkv
        rcases List.mem_cons.mp hkv with rfl | hkv2
        · rfl
        · rcases List.mem_cons.mp hkv2 with rfl | hkv3
          · rfl
          · exact absurd hkv3 (List.not_mem_nil _))
    ⟨("tags", Val.list []), List.mem_cons_of_mem _ (List.mem_cons_self _ _),
      rfl⟩

/-- C5 witness: the general suffix-dispatch conjuncts applied at concrete
inputs. -/
theorem claim_C5_witness :
    Record.append_query [] ("score" ++ "_" ++ "lte") (Val.int 9) [] [] =
      .ok [("score", "score" ++ "<=" ++ "%s", Val.int 9)] ∧
    Record.append_query [] "plain" (Val.str "v") [] [] =
      .ok [("plain", "plain" ++ "=%s", Val.str "v")] :=
  ⟨claim_C5.2.2.1 "score" "lte" "<=" (Val.int 9) (by simp [op_map])
      (by decide) rfl,
   claim_C5.2.2.2 "plain" (Val.str "v") (by decide) rfl⟩

/-- C8 witness: the sub-select passthrough and the comma-split branches
applied at concrete inputs. -/
theorem claim_C8_witness :
    Record.append_query [] ("uid" ++ "_in")
      (Val.str "Select id from users") [] [] =
      .ok [("uid", "uid" ++ " in (" ++ "Select id from users" ++ ")",
        Val.str "__IGNORE__")] ∧
    Record.append_query [] ("uid" ++ "_in") (Val.str "1, 2") [] [] =
      .ok [("uid", "uid" ++ " in (" ++
        joinSep ", " ((pySplitCh ',' "1, 2").map (fun _ => "%s")) ++ ")",
        Val.list ((pySplitCh ',' "1, 2").map
          (fun piece => Val.str (pyStrip piece))))] :=
  ⟨claim_C8.1 [] "uid" "Select id from users" [] [] (by decide),
   claim_C8.2.2.1 [] "uid" "1, 2" (by decide)⟩

/-- C6 counterexample: the claim says the reconnect-and-retry happens
exactly once, so that a second pool-closing failure propagates to the
caller.  In the code the retry is a full recursive call, so with two
consecutive closing failures followed by a success the call succeeds after
TWO reconnects instead of propagating the second failure. -/
theorem claim_C6_counterexample :
    Pool.run_with_pool false
      (fun i => if i < 2 then
          Except.error ⟨true, "cannot acquire, the pool is closing"⟩
        else Except.ok (Val.int 7)) 5 =
      some (.ok (Val.int 7), 2) := rfl

/-- C6 (amended): with a caller-supplied cursor any failure propagates
unmodified with no reconnect; without one, a success or a failure that is
not a closing-message RuntimeError propagates with no reconnect; a
RuntimeError whose message contains "closing" triggers reconnect-and-retry
RECURSIVELY, so after any number k of consecutive closing failures the
call returns the first non-retried outcome having performed k reconnects
(rather than propagating from the second failure on). -/
theorem claim_C6 :
    (∀ (behav : Nat → Pool.Attempt) (e : Pool.RunErr) (fuel : Nat),
      behav 0 = .error e → 1 ≤ fuel →
      Pool.run_with_pool true behav fuel = some (.error e, 0)) ∧
    (∀ (behav : Nat → Pool.Attempt) (v : Val) (fuel : Nat),
      behav 0 = .ok v → 1 ≤ fuel →
      Pool.run_with_pool false behav fuel = some (.ok v, 0)) ∧
    (∀ (behav : Nat → Pool.Attempt) (e : Pool.RunErr) (fuel : Nat),
      behav 0 = .error e →
      (e.isRuntimeError = false ∨ pyContains e.msg "closing" = false) →
      1 ≤ fuel →
      Pool.run_with_pool false behav fuel = some (.error e, 0)) ∧
    (∀ (behav : Nat → Pool.Attempt) (k : Nat),
      (∀ i, i < k → ∃ e, behav i = .error e ∧ e.isRuntimeError = true ∧
        pyContains e.msg "closing" = true) →
      (match behav k with
       | .ok _ => True
       | .error e => e.isRuntimeError = false ∨
          pyContains e.msg "closing" = false) →
      Pool.run_with_pool false behav (k + 1) = some (behav k, k)) := by
  refine ⟨?_, ?_, ?_, ?_⟩
  · intro behav e fuel hb hf
    cases fuel with
    | zero => omega
    | succ f =>
      unfold Pool.run_with_pool Pool.runAux
      rw [hb]
      rfl
  · intro behav v fuel hb hf
    cases fuel with
    | zero => omega
    | succ f =>
      unfold Pool.run_with_pool Pool.runAux
      rw [hb]
  · intro behav e fuel hb hcond hf
    cases fuel with
    | zero => omega
    | succ f =>
      unfold Pool.run_with_pool Pool.runAux
      rw [hb]
      dsimp only
      rcases hcond with h | h
      · rw [h]
        rfl
      · rw [h]
        simp
  · intro behav k hcl hfin
    have := runAux_closing_prefix behav k 0
      (fun i h1 h2 => hcl i (by omega)) (by simpa using hfin)
    unfold Pool.run_with_pool
    simpa using this

/-- C6 witness: the amended recursive-retry behaviour applied to a
concrete script of three closing failures followed by a success. -/
theorem claim_C6_witness :
    Pool.run_with_pool false
      (fun i => if i < 3 then
          Except.error ⟨true, "connection pool is closing down"⟩
        else Except.ok (Val.str "done")) 4 =
      some (.ok (Val.str "done"), 3) := by
  have h := claim_C6.2.2.2
    (fun i => if i < 3 then
        Except.error ⟨true, "connection pool is closing down"⟩
      else Except.ok (Val.str "done")) 3
    (fun i hi => ⟨⟨true, "connection pool is closing down"⟩,
      by simp [hi], rfl, by decide⟩)
    (by simp)
  simpa using h


/-!
### Lemmas for the save change loops
-/

theorem keysLoop_no_change (old : Row) (data : Row) (ks : List String)
    (h : ∀ k ∈ ks, ∀ v, dget data k = some v →
      ∃ w, alGet old k = some w ∧ pyEq w v = true) :
    keysLoop (some old) data ks = .ok [] := by
  induction ks with
  | nil => rfl
  | cons k rest ih =>
    have htail := ih (fun k2 h2 v hv => h k2 (List.mem_cons_of_mem _ h2) v hv)
    have hhead : keysLoopHead (some old) data k = .ok none := by
      unfold keysLoopHead
      cases hd : dget data k with
      | none => rfl
      | some v =>
        obtain ⟨w, hw, hpw⟩ := h k (List.mem_cons_self _ _) v hd
        dsimp only
        rw [hw]
        dsimp only
        rw [hpw]
        rfl
    unfold keysLoop
    rw [hhead, htail]

theorem jsonLoop_none (old? : Option Row) (rk : List String) (data : Row)
    (ks : List String) (h : ∀ k ∈ ks, dget data k = none) :
    jsonLoop old? rk data ks = .ok [] := by
  induction ks with
  | nil => rfl
  | cons k rest ih =>
    have htail := ih (fun k2 h2 => h k2 (List.mem_cons_of_mem _ h2))
    have hhead : jsonLoopHead old? rk data k = .ok none := by
      unfold jsonLoopHead
      rw [h k (List.mem_cons_self _ _)]
    unfold jsonLoop
    rw [hhead, htail]

theorem subJsonLoop_none (old? : Option Row) (rk : List String) (data : Row)
    (ks : List String) (h : ∀ k ∈ ks, dget data k = none) :
    subJsonLoop old? rk data ks = .ok [] := by
  induction ks with
  | nil => rfl
  | cons k rest ih =>
    have htail := ih (fun k2 h2 => h k2 (List.mem_cons_of_mem _ h2))
    have hhead : subJsonLoopHead old? rk data k = .ok none := by
      unfold subJsonLoopHead
      rw [h k (List.mem_cons_self _ _)]
    unfold subJsonLoop
    rw [hhead, htail]

theorem updatedAtStamp_nil (keys : List String) (data : Row) (now : Int)
    (h : keys.contains "updated_at" = false ∨
      (dget data "updated_at").isSome) :
    updatedAtStamp keys data now = [] := by
  unfold updatedAtStamp
  rcases h with h | h
  · rw [h]
    rfl
  · rw [show (dget data "updated_at").isNone = false by
      cases hd : dget data "updated_at" with
      | none => rw [hd] at h; simp at h
      | some v => rfl]
    simp

/-- C2 counterexample: the claim says that a `save()` finding an existing
record, with every supplied column value equal to the stored value, returns
the existing id and issues NO UPDATE.  With `updated_at` among the declared
keys (and not supplied), the code auto-stamps `updated_at` and issues an
UPDATE even though every supplied value is unchanged. -/
theorem claim_C2_counterexample :
    Record.save [[("id", Val.int 1), ("a", Val.int 5)]] (some 1)
      ["a", "updated_at"] [] [] [] [] [] [] [("a", Val.int 5)] 200 99 =
    ⟨[Stmt.update ["updated_at"] [Val.int 200, Val.int 1]],
     .ok (Val.int 1),
     [[("id", Val.int 1), ("a", Val.int 5), ("updated_at", Val.int 200)]]⟩ :=
  rfl

/-- C2 (amended): a `save()` call that finds an existing record, in which
every supplied plain-column value equals the stored value, PROVIDED
additionally that no JSON or sub-JSON column value is supplied and that
`updated_at` is not auto-stamped (it is either not among the declared keys
or is itself supplied), returns the existing record's id, issues no UPDATE
statement, and leaves the table unchanged.  First conjunct: the
asynchronous `record.py` `save`; second conjunct: the synchronous
`record_sync.py` `save`. -/
theorem claim_C2 :
    (∀ (t : Table) (id? : Option Int)
        (keys uniq_keys optional_keys json_keys sub_json_keys replace_keys
          exclude_data_keys : List String)
        (data0 : Row) (now nid : Int) (old : Row) (oid : Val),
      lookupOld t id? uniq_keys optional_keys
          (dataAfterExclude exclude_data_keys data0) = .ok (some old) →
      (∀ k ∈ keys, ∀ v,
        dget (dataAfterExclude exclude_data_keys data0) k = some v →
        ∃ w, alGet old k = some w ∧ pyEq w v = true) →
      (∀ k ∈ json_keys,
        dget (dataAfterExclude exclude_data_keys data0) k = none) →
      (∀ k ∈ sub_json_keys,
        dget (dataAfterExclude exclude_data_keys data0) k = none) →
      (keys.contains "updated_at" = false ∨
        (dget (dataAfterExclude exclude_data_keys data0)
          "updated_at").isSome) →
      (idTruthy id? = true → ∃ full, Record.uniqStep old
        (dataAfterExclude exclude_data_keys data0) uniq_keys =
          .ok (false, full, [])) →
      alGet old "id" = some oid →
      Record.save t id? keys uniq_keys optional_keys json_keys sub_json_keys
        replace_keys exclude_data_keys data0 now nid =
        ⟨[], .ok oid, t⟩) ∧
    (∀ (t : Table) (id? : Option Int)
        (keys uniq_keys optional_keys json_keys sub_json_keys replace_keys
          exclude_data_keys : List String)
        (data0 : Row) (now nid : Int) (old : Row) (oid : Val),
      lookupOld t id? uniq_keys optional_keys data0 = .ok (some old) →
      (∀ k ∈ keys ++ uniq_keys, ∀ v,
        dget (dataAfterExclude exclude_data_keys data0) k = some v →
        ∃ w, alGet old k = some w ∧ pyEq w v = true) →
      (∀ k ∈ json_keys,
        dget (dataAfterExclude exclude_data_keys data0) k = none) →
      (∀ k ∈ sub_json_keys,
        dget (dataAfterExclude exclude_data_keys data0) k = none) →
      (keys.contains "updated_at" = false ∨
        (dget (dataAfterExclude exclude_data_keys data0)
          "updated_at").isSome) →
      (∃ full, RecordUtils.get_uniq_data (some old) data0 uniq_keys =
        .ok (false, full)) →
      alGet old "id" = some oid →
      RecordSync.save t id? keys uniq_keys optional_keys json_keys
        sub_json_keys replace_keys exclude_data_keys data0 now nid =
        ⟨[], .ok oid, t⟩) := by
  constructor
  · intro t id? keys uniq_keys optional_keys json_keys sub_json_keys
      replace_keys exclude_data_keys data0 now nid old oid
      hlook hkeys hjson hsub hupd hustep hid
    have hprep : Record.prepareChangePairs (some old) keys json_keys
        sub_json_keys replace_keys (dataAfterExclude exclude_data_keys data0)
        now = .ok [] := by
      unfold Record.prepareChangePairs
      rw [keysLoop_no_change old _ keys hkeys,
        jsonLoop_none _ _ _ json_keys hjson,
        subJsonLoop_none _ _ _ sub_json_keys hsub,
        updatedAtStamp_nil keys _ now hupd]
      rfl
    unfold Record.save
    dsimp only
    rw [hlook]
    dsimp only
    rw [hprep]
    dsimp only
    by_cases hidt : idTruthy id? = true
    · obtain ⟨full, hstep⟩ := hustep hidt
      rw [hidt]
      simp only [if_true]
      rw [hstep]
      dsimp only
      unfold finishUpdate
      rw [hid]
      rfl
    · rw [show idTruthy id? = false by simpa using hidt]
      simp only [Bool.false_eq_true, if_false]
      unfold finishUpdate
      rw [hid]
      rfl
  · intro t id? keys uniq_keys optional_keys json_keys sub_json_keys
      replace_keys exclude_data_keys data0 now nid old oid
      hlook hkeys hjson hsub hupd hustep hid
    obtain ⟨full, hstep⟩ := hustep
    have hprep : RecordUtils.prepare_save keys uniq_keys exclude_data_keys
        json_keys replace_keys sub_json_keys (some old) data0 now =
        .ok [] := by
      unfold RecordUtils.prepare_save
      dsimp only
      rw [keysLoop_no_change old _ (keys ++ uniq_keys) hkeys,
        jsonLoop_none _ _ _ json_keys hjson,
        subJsonLoop_none _ _ _ sub_json_keys hsub,
        updatedAtStamp_nil keys _ now hupd]
      rfl
    unfold RecordSync.save
    rw [hlook]
    dsimp only
    rw [hprep]
    dsimp only
    rw [hstep]
    dsimp only
    unfold finishUpdate
    rw [hid]
    rfl

/-- C2 witness: the amended no-change property applied to a concrete
table, for both the asynchronous and the synchronous save. -/
theorem claim_C2_witness :
    Record.save [[("id", Val.int 4), ("a", Val.int 5), ("u", Val.int 9)]]
      (some 4) ["a"] ["u"] [] [] [] [] [] [("a", Val.int 5)] 300 77 =
      ⟨[], .ok (Val.int 4),
        [[("id", Val.int 4), ("a", Val.int 5), ("u", Val.int 9)]]⟩ ∧
    RecordSync.save [[("id", Val.int 4), ("a", Val.int 5), ("u", Val.int 9)]]
      (some 4) ["a"] ["u"] [] [] [] [] [] [("a", Val.int 5)] 300 77 =
      ⟨[], .ok (Val.int 4),
        [[("id", Val.int 4), ("a", Val.int 5), ("u", Val.int 9)]]⟩ :=
  ⟨claim_C2.1 [[("id", Val.int 4), ("a", Val.int 5), ("u", Val.int 9)]]
    (some 4) ["a"] ["u"] [] [] [] [] [] [("a", Val.int 5)] 300 77
    [("id", Val.int 4), ("a", Val.int 5), ("u", Val.int 9)] (Val.int 4)
    rfl
    (by intro k hk v hv
        rcases List.mem_cons.mp hk with rfl | hk2
        · refine ⟨Val.int 5, rfl, ?_⟩
          have hv2 : v = Val.int 5 := by
            have := hv
            simp [dget, alGet] at this
            exact this.symm
          rw [hv2]
          rfl
        · exact absurd hk2 (List.not_mem_nil _))
    (by intro k hk; exact absurd hk (List.not_mem_nil _))
    (by intro k hk; exact absurd hk (List.not_mem_nil _))
    (Or.inl rfl)
    (fun hidt => ⟨[("u", Val.int 9)], rfl⟩)
    rfl,
   claim_C2.2 [[("id", Val.int 4), ("a", Val.int 5), ("u", Val.int 9)]]
    (some 4) ["a"] ["u"] [] [] [] [] [] [("a", Val.int 5)] 300 77
    [("id", Val.int 4), ("a", Val.int 5), ("u", Val.int 9)] (Val.int 4)
    rfl
    (by intro k hk v hv
        rcases List.mem_cons.mp hk with rfl | hk2
        · refine ⟨Val.int 5, rfl, ?_⟩
          have hv2 : v = Val.int 5 := by
            have := hv
            simp [dget, alGet] at this
            exact this.symm
          rw [hv2]
          rfl
        · rcases List.mem_cons.mp hk2 with rfl | hk3
          · simp [dget, alGet] at hv
          · exact absurd hk3 (List.not_mem_nil _))
    (by intro k hk; exact absurd hk (List.not_mem_nil _))
    (by intro k hk; exact absurd hk (List.not_mem_nil _))
    (Or.inl rfl)
    ⟨[("u", Val.int 9)], rfl⟩
    rfl⟩


/-!
### Lemmas for dictUpdate (shallow JSON merge)
-/

theorem alGet_append (a b : List (String × Val)) (k : String) :
    alGet (a ++ b) k =
      match alGet a k with
      | some v => some v
      | none => alGet b k := by
  induction a with
  | nil => rfl
  | cons kv rest ih =>
    by_cases hk : kv.1 = k
    · obtain ⟨k2, v2⟩ := kv
      simp only at hk
      subst hk
      simp [alGet]
    · obtain ⟨k2, v2⟩ := kv
      simp only at hk
      simp [alGet, hk, ih]

theorem alGet_mapUpdate (od nd : List (String × Val)) (k : String) :
    alGet (od.map (fun kv =>
      match alGet nd kv.1 with
      | some v => (kv.1, v)
      | none => kv)) k =
    match alGet od k with
    | none => none
    | some w =>
      match alGet nd k with
      | some v => some v
      | none => some w := by
  induction od with
  | nil => rfl
  | cons kv rest ih =>
    obtain ⟨k2, w2⟩ := kv
    by_cases hk : k2 = k
    · subst hk
      cases hnd : alGet nd k2 with
      | none => simp [alGet, hnd]
      | some v => simp [alGet, hnd]
    · cases hnd : alGet nd k2 with
      | none => simp [alGet, hk, hnd, ih]
      | some v => simp [alGet, hk, hnd, ih]

theorem alGet_filter_isNone (od nd : List (String × Val)) (k : String)
    (h : alGet od k = none) :
    alGet (nd.filter (fun kv => (alGet od kv.1).isNone)) k = alGet nd k := by
  induction nd with
  | nil => rfl
  | cons kv rest ih =>
    obtain ⟨k2, v2⟩ := kv
    by_cases hk : k2 = k
    · subst hk
      simp [List.filter, alGet, h]
    · cases hf : (alGet od k2).isNone with
      | true => simp [List.filter, hf, alGet, hk, ih]
      | false => simp [List.filter, hf, alGet, hk, ih]

/-- Characterization of the shallow merge `dictUpdate old new` (the model
of Python `old.update(new)`): a top-level key bound in the new dictionary
takes the new value, every other key of the old dictionary keeps its old
value. -/
theorem dictUpdate_lookup (od nd : List (String × Val)) (k : String) :
    alGet (dictUpdate od nd) k =
      match alGet nd k with
      | some v => some v
      | none => alGet od k := by
  unfold dictUpdate
  rw [alGet_append, alGet_mapUpdate]
  cases hod : alGet od k with
  | none =>
    rw [alGet_filter_isNone od nd k hod]
    cases hnd : alGet nd k <;> rfl
  | some w =>
    cases hnd : alGet nd k <;> rfl

/-- C1: a `save()` call that finds an existing record by a truthy id and
whose input changes at least one unique-key value to a full unique tuple
already owned by another existing row raises the uniqueness-conflict error
carrying that row's id, issues no UPDATE or INSERT, and leaves the table
(hence both rows) unmodified.  First conjunct: the asynchronous
`record.py` `save`; second conjunct: the synchronous `record_sync.py`
`save` (where the conflict check runs in both lookup branches, so no
truthy-id hypothesis is needed). -/
theorem claim_C1 :
    (∀ (t : Table) (id? : Option Int)
        (keys uniq_keys optional_keys json_keys sub_json_keys replace_keys
          exclude_data_keys : List String)
        (data0 : Row) (now nid : Int) (old : Row)
        (pairs : List (String × Val)) (full : Row)
        (upairs : List (String × Val)) (o1 : Row) (oid : Val),
      idTruthy id? = true →
      lookupOld t id? uniq_keys optional_keys
          (dataAfterExclude exclude_data_keys data0) = .ok (some old) →
      Record.prepareChangePairs (some old) keys json_keys sub_json_keys
          replace_keys (dataAfterExclude exclude_data_keys data0) now =
        .ok pairs →
      Record.uniqStep old (dataAfterExclude exclude_data_keys data0)
          uniq_keys = .ok (true, full, upairs) →
      getByUniq t uniq_keys optional_keys full = .ok (some o1) →
      alGet o1 "id" = some oid →
      Record.save t id? keys uniq_keys optional_keys json_keys sub_json_keys
        replace_keys exclude_data_keys data0 now nid =
        ⟨[], .error ("cant update record uniq value to exists value " ++
          pyStr oid), t⟩) ∧
    (∀ (t : Table) (id? : Option Int)
        (keys uniq_keys optional_keys json_keys sub_json_keys replace_keys
          exclude_data_keys : List String)
        (data0 : Row) (now nid : Int) (old : Row)
        (pairs : List (String × Val)) (full : Row) (o1 : Row) (oid : Val),
      lookupOld t id? uniq_keys optional_keys data0 = .ok (some old) →
      RecordUtils.prepare_save keys uniq_keys exclude_data_keys json_keys
          replace_keys sub_json_keys (some old) data0 now = .ok pairs →
      RecordUtils.get_uniq_data (some old) data0 uniq_keys =
        .ok (true, full) →
      getByUniq t uniq_keys optional_keys full = .ok (some o1) →
      alGet o1 "id" = some oid →
      RecordSync.save t id? keys uniq_keys optional_keys json_keys
        sub_json_keys replace_keys exclude_data_keys data0 now nid =
        ⟨[], .error ("cant update record uniq value to exists value " ++
          pyStr oid), t⟩) := by
  constructor
  · intro t id? keys uniq_keys optional_keys json_keys sub_json_keys
      replace_keys exclude_data_keys data0 now nid old pairs full upairs
      o1 oid hidt hlook hprep hstep hconf hid
    unfold Record.save
    dsimp only
    rw [hlook]
    dsimp only
    rw [hprep]
    dsimp only
    rw [hidt]
    simp only [if_true]
    rw [hstep]
    dsimp only
    simp only [if_true]
    rw [hconf]
    dsimp only
    rw [hid]
  · intro t id? keys uniq_keys optional_keys json_keys sub_json_keys
      replace_keys exclude_data_keys data0 now nid old pairs full
      o1 oid hlook hprep hstep hconf hid
    unfold RecordSync.save
    rw [hlook]
    dsimp only
    rw [hprep]
    dsimp only
    rw [hstep]
    dsimp only
    simp only [if_true]
    rw [hconf]
    dsimp only
    rw [hid]

/-- C1 witness: changing row 1's unique value `u` to the value owned by
row 2 raises the conflict error naming id 2 and leaves the table
unchanged, in both modules. -/
theorem claim_C1_witness :
    Record.save
      [[("id", Val.int 1), ("u", Val.int 10)],
       [("id", Val.int 2), ("u", Val.int 20)]]
      (some 1) [] ["u"] [] [] [] [] [] [("u", Val.int 20)] 100 99 =
      ⟨[], .error "cant update record uniq value to exists value 2",
        [[("id", Val.int 1), ("u", Val.int 10)],
         [("id", Val.int 2), ("u", Val.int 20)]]⟩ ∧
    RecordSync.save
      [[("id", Val.int 1), ("u", Val.int 10)],
       [("id", Val.int 2), ("u", Val.int 20)]]
      (some 1) [] ["u"] [] [] [] [] [] [("u", Val.int 20)] 100 99 =
      ⟨[], .error "cant update record uniq value to exists value 2",
        [[("id", Val.int 1), ("u", Val.int 10)],
         [("id", Val.int 2), ("u", Val.int 20)]]⟩ :=
  ⟨claim_C1.1
    [[("id", Val.int 1), ("u", Val.int 10)],
     [("id", Val.int 2), ("u", Val.int 20)]]
    (some 1) [] ["u"] [] [] [] [] [] [("u", Val.int 20)] 100 99
    [("id", Val.int 1), ("u", Val.int 10)] [] [("u", Val.int 20)]
    [("u", Val.int 20)] [("id", Val.int 2), ("u", Val.int 20)] (Val.int 2)
    rfl rfl rfl rfl rfl rfl,
   claim_C1.2
    [[("id", Val.int 1), ("u", Val.int 10)],
     [("id", Val.int 2), ("u", Val.int 20)]]
    (some 1) [] ["u"] [] [] [] [] [] [("u", Val.int 20)] 100 99
    [("id", Val.int 1), ("u", Val.int 10)] [("u", Val.int 20)]
    [("u", Val.int 20)]
    [("id", Val.int 2), ("u", Val.int 20)] (Val.int 2)
    rfl rfl rfl rfl rfl⟩

/-- C3: for an existing record whose JSON column (declared in `json_keys`)
currently stores the dictionary `od` (as the driver returns it), saving a
dictionary `nd` for that column issues one UPDATE that stores the
serialization of the shallow merge `dictUpdate od nd` (top-level keys of
the new value replace equal old keys, all other old top-level keys are
kept, per `dictUpdate_lookup`); if the column is listed in `replace_keys`,
the UPDATE stores exactly the serialization of the new value.  The first
conjunct characterizes the shallow merge; the second covers the
asynchronous `record.py` `save`; the third the synchronous
`record_sync.py` `save`. -/
theorem claim_C3 :
    (∀ (od nd : List (String × Val)) (k : String),
      alGet (dictUpdate od nd) k =
        match alGet nd k with
        | some v => some v
        | none => alGet od k) ∧
    (∀ (t : Table) (id? : Option Int) (col : String)
        (replace_keys : List String) (nd od : List (String × Val))
        (old : Row) (oid : Val) (now nid : Int),
      lookupOld t id? [] [] [(col, Val.dict nd)] = .ok (some old) →
      alGet old col = some (Val.dict od) →
      alGet old "id" = some oid →
      (replace_keys.contains col = false →
        Record.save t id? [] [] [] [col] [] replace_keys []
          [(col, Val.dict nd)] now nid =
          ⟨[Stmt.update [col]
              [Val.str (jsonDumps (Val.dict (dictUpdate od nd))), oid]],
           .ok oid,
           applyUpdate t oid
             [(col, Val.str (jsonDumps (Val.dict (dictUpdate od nd))))]⟩) ∧
      (replace_keys.contains col = true →
        Record.save t id? [] [] [] [col] [] replace_keys []
          [(col, Val.dict nd)] now nid =
          ⟨[Stmt.update [col] [Val.str (jsonDumps (Val.dict nd)), oid]],
           .ok oid,
           applyUpdate t oid
             [(col, Val.str (jsonDumps (Val.dict nd)))]⟩)) ∧
    (∀ (t : Table) (id? : Option Int) (col : String)
        (replace_keys : List String) (nd od : List (String × Val))
        (old : Row) (oid : Val) (now nid : Int),
      lookupOld t id? [] [] [(col, Val.dict nd)] = .ok (some old) →
      alGet old col = some (Val.dict od) →
      alGet old "id" = some oid →
      (replace_keys.contains col = false →
        RecordSync.save t id? [] [] [] [col] [] replace_keys []
          [(col, Val.dict nd)] now nid =
          ⟨[Stmt.update [col]
              [Val.str (jsonDumps (Val.dict (dictUpdate od nd))), oid]],
           .ok oid,
           applyUpdate t oid
             [(col, Val.str (jsonDumps (Val.dict (dictUpdate od nd))))]⟩) ∧
      (replace_keys.contains col = true →
        RecordSync.save t id? [] [] [] [col] [] replace_keys []
          [(col, Val.dict nd)] now nid =
          ⟨[Stmt.update [col] [Val.str (jsonDumps (Val.dict nd)), oid]],
           .ok oid,
           applyUpdate t oid
             [(col, Val.str (jsonDumps (Val.dict nd)))]⟩)) := by
  have hdget : ∀ (col : String) (nd : List (String × Val)),
      dget [(col, Val.dict nd)] col = some (Val.dict nd) := by
    intro col nd
    simp [dget, alGet]
  have hjson : ∀ (col : String) (replace_keys : List String)
      (nd od : List (String × Val)) (old : Row),
      alGet old col = some (Val.dict od) →
      replace_keys.contains col = false →
      jsonLoop (some old) replace_keys [(col, Val.dict nd)] [col] =
        .ok [(col, Val.str (jsonDumps (Val.dict (dictUpdate od nd))))] := by
    intro col replace_keys nd od old hold hrep
    unfold jsonLoop jsonLoopHead
    rw [hdget col nd]
    dsimp only
    rw [hrep]
    simp only [Bool.false_eq_true, if_false]
    rw [hold]
    rfl
  have hjson2 : ∀ (col : String) (replace_keys : List String)
      (nd : List (String × Val)) (old : Row),
      replace_keys.contains col = true →
      jsonLoop (some old) replace_keys [(col, Val.dict nd)] [col] =
        .ok [(col, Val.str (jsonDumps (Val.dict nd)))] := by
    intro col replace_keys nd old hrep
    unfold jsonLoop jsonLoopHead
    rw [hdget col nd]
    dsimp only
    rw [hrep]
    rfl
  refine ⟨dictUpdate_lookup, ?_, ?_⟩
  · intro t id? col replace_keys nd od old oid now nid hlook hold hid
    constructor
    · intro hrep
      have hprep : Record.prepareChangePairs (some old) [] [col] []
          replace_keys [(col, Val.dict nd)] now =
          .ok [(col, Val.str (jsonDumps (Val.dict (dictUpdate od nd))))] := by
        unfold Record.prepareChangePairs
        rw [hjson col replace_keys nd od old hold hrep]
        rfl
      unfold Record.save
      dsimp only
      rw [show dataAfterExclude [] [(col, Val.dict nd)] =
        [(col, Val.dict nd)] from rfl]
      rw [hlook]
      dsimp only
      rw [hprep]
      dsimp only
      by_cases hidt : idTruthy id? = true
      · rw [hidt]
        simp only [if_true]
        unfold Record.uniqStep
        dsimp only
        unfold finishUpdate
        rw [hid]
        rfl
      · rw [show idTruthy id? = false by simpa using hidt]
        simp only [Bool.false_eq_true, if_false]
        unfold finishUpdate
        rw [hid]
        rfl
    · intro hrep
      have hprep : Record.prepareChangePairs (some old) [] [col] []
          replace_keys [(col, Val.dict nd)] now =
          .ok [(col, Val.str (jsonDumps (Val.dict nd)))] := by
        unfold Record.prepareChangePairs
        rw [hjson2 col replace_keys nd old hrep]
        rfl
      unfold Record.save
      dsimp only
      rw [show dataAfterExclude [] [(col, Val.dict nd)] =
        [(col, Val.dict nd)] from rfl]
      rw [hlook]
      dsimp only
      rw [hprep]
      dsimp only
      by_cases hidt : idTruthy id? = true
      · rw [hidt]
        simp only [if_true]
        unfold Record.uniqStep
        dsimp only
        unfold finishUpdate
        rw [hid]
        rfl
      · rw [show idTruthy id? = false by simpa using hidt]
        simp only [Bool.false_eq_true, if_false]
        unfold finishUpdate
        rw [hid]
        rfl
  · intro t id? col replace_keys nd od old oid now nid hlook hold hid
    constructor
    · intro hrep
      have hprep : RecordUtils.prepare_save [] [] [] [col] replace_keys []
          (some old) [(col, Val.dict nd)] now =
          .ok [(col, Val.str (jsonDumps (Val.dict (dictUpdate od nd))))] := by
        unfold RecordUtils.prepare_save
        dsimp only
        rw [show dataAfterExclude [] [(col, Val.dict nd)] =
          [(col, Val.dict nd)] from rfl]
        rw [hjson col replace_keys nd od old hold hrep]
        rfl
      unfold RecordSync.save
      rw [hlook]
      dsimp only
      rw [hprep]
      dsimp only
      unfold finishUpdate
      rw [hid]
      rfl
    · intro hrep
      have hprep : RecordUtils.prepare_save [] [] [] [col] replace_keys []
          (some old) [(col, Val.dict nd)] now =
          .ok [(col, Val.str (jsonDumps (Val.dict nd)))] := by
        unfold RecordUtils.prepare_save
        dsimp only
        rw [show dataAfterExclude [] [(col, Val.dict nd)] =
          [(col, Val.dict nd)] from rfl]
        rw [hjson2 col replace_keys nd old hrep]
        rfl
      unfold RecordSync.save
      rw [hlook]
      dsimp only
      rw [hprep]
      dsimp only
      unfold finishUpdate
      rw [hid]
      rfl

/-- C3 witness: on a row storing `{"a": 1}` in JSON column `d`, saving
`{"b": 2}` issues an UPDATE storing the merge `{"a": 1, "b": 2}`; with
`d` in the replace-keys it stores exactly `{"b": 2}`; both modules. -/
theorem claim_C3_witness :
    Record.save [[("id", Val.int 1), ("d", Val.dict [("a", Val.int 1)])]]
      (some 1) [] [] [] ["d"] [] [] []
      [("d", Val.dict [("b", Val.int 2)])] 100 99 =
      ⟨[Stmt.update ["d"]
          [Val.str "\x7b\"a\": 1, \"b\": 2\x7d", Val.int 1]],
       .ok (Val.int 1),
       [[("id", Val.int 1),
         ("d", Val.str "\x7b\"a\": 1, \"b\": 2\x7d")]]⟩ ∧
    RecordSync.save [[("id", Val.int 1), ("d", Val.dict [("a", Val.int 1)])]]
      (some 1) [] [] [] ["d"] [] ["d"] []
      [("d", Val.dict [("b", Val.int 2)])] 100 99 =
      ⟨[Stmt.update ["d"] [Val.str "\x7b\"b\": 2\x7d", Val.int 1]],
       .ok (Val.int 1),
       [[("id", Val.int 1), ("d", Val.str "\x7b\"b\": 2\x7d")]]⟩ := by
  constructor
  · have h := (claim_C3.2.1
      [[("id", Val.int 1), ("d", Val.dict [("a", Val.int 1)])]]
      (some 1) "d" [] [("b", Val.int 2)] [("a", Val.int 1)]
      [("id", Val.int 1), ("d", Val.dict [("a", Val.int 1)])]
      (Val.int 1) 100 99 rfl rfl rfl).1 rfl
    exact h.trans (by rfl)
  · have h := (claim_C3.2.2
      [[("id", Val.int 1), ("d", Val.dict [("a", Val.int 1)])]]
      (some 1) "d" ["d"] [("b", Val.int 2)] [("a", Val.int 1)]
      [("id", Val.int 1), ("d", Val.dict [("a", Val.int 1)])]
      (Val.int 1) 100 99 rfl rfl rfl).2 rfl
    exact h.trans (by rfl)


/-!
### Async/sync facade comparison (C9)
-/

theorem append_query_list_eq_nil (q : List QItem) (k : String)
    (vs : List Val) :
    Record.append_query_list q k vs [] [] =
      RecordUtils.append_query_list q k vs [] [] := by
  unfold Record.append_query_list RecordUtils.append_query_list
  cases hvs : vs.isEmpty with
  | true => simp only [if_true]
  | false =>
    simp only [Bool.false_eq_true, if_false]
    rw [Record.format_key_nil, RecordUtils.format_key_nil_sync]

theorem append_query_eq_nil (q : List QItem) (k : String) (v : Val) :
    Record.append_query q k v [] [] =
      RecordUtils.append_query q k v [] [] := by
  unfold Record.append_query RecordUtils.append_query
  cases v with
  | null => rfl
  | list vs => exact append_query_list_eq_nil q k vs
  | str s =>
    dsimp only
    cases hre : re_op_search k with
    | none =>
      dsimp only
      simp only [show (("=" : String) == " in ") = false from rfl,
        Bool.false_eq_true, if_false]
      rw [Record.format_key_nil, RecordUtils.format_key_nil_sync]
    | some op =>
      dsimp only
      cases hin : (((op_map.lookup op).getD "=") == " in ") with
      | false =>
        simp only [hin, Bool.false_eq_true, if_false]
        rw [Record.format_key_nil, RecordUtils.format_key_nil_sync]
      | true =>
        simp only [hin, if_true]
        cases hsel : pyContains (pyLower s) "select" with
        | true => simp only [hsel, if_true]
        | false =>
          simp only [hsel, Bool.false_eq_true, if_false]
          exact append_query_list_eq_nil q
            (strDropRight k (op.length + 1))
            ((pySplitCh ',' s).map (fun p => Val.str (pyStrip p)))
  | int n =>
    dsimp only
    cases hre : re_op_search k with
    | none =>
      dsimp only
      simp only [show (("=" : String) == " in ") = false from rfl,
        Bool.false_eq_true, if_false]
      rw [Record.format_key_nil, RecordUtils.format_key_nil_sync]
    | some op =>
      dsimp only
      cases hin : (((op_map.lookup op).getD "=") == " in ") with
      | false =>
        simp only [hin, Bool.false_eq_true, if_false]
        rw [Record.format_key_nil, RecordUtils.format_key_nil_sync]
      | true => simp only [hin, if_true]
  | bool b =>
    dsimp only
    cases hre : re_op_search k with
    | none =>
      dsimp only
      simp only [show (("=" : String) == " in ") = false from rfl,
        Bool.false_eq_true, if_false]
      rw [Record.format_key_nil, RecordUtils.format_key_nil_sync]
    | some op =>
      dsimp only
      cases hin : (((op_map.lookup op).getD "=") == " in ") with
      | false =>
        simp only [hin, Bool.false_eq_true, if_false]
        rw [Record.format_key_nil, RecordUtils.format_key_nil_sync]
      | true => simp only [hin, if_true]
  | float txt =>
    dsimp only
    cases hre : re_op_search k with
    | none =>
      dsimp only
      simp only [show (("=" : String) == " in ") = false from rfl,
        Bool.false_eq_true, if_false]
      rw [Record.format_key_nil, RecordUtils.format_key_nil_sync]
    | some op =>
      dsimp only
      cases hin : (((op_map.lookup op).getD "=") == " in ") with
      | false =>
        simp only [hin, Bool.false_eq_true, if_false]
        rw [Record.format_key_nil, RecordUtils.format_key_nil_sync]
      | true => simp only [hin, if_true]
  | dict d =>
    dsimp only
    cases hre : re_op_search k with
    | none =>
      dsimp only
      simp only [show (("=" : String) == " in ") = false from rfl,
        Bool.false_eq_true, if_false]
      rw [Record.format_key_nil, RecordUtils.format_key_nil_sync]
    | some op =>
      dsimp only
      cases hin : (((op_map.lookup op).getD "=") == " in ") with
      | false =>
        simp only [hin, Bool.false_eq_true, if_false]
        rw [Record.format_key_nil, RecordUtils.format_key_nil_sync]
      | true => simp only [hin, if_true]

/-- C9 counterexample: the asynchronous and synchronous facades disagree
on SQL text.  On the dotted JSON-path filter key `data.flag` with a boolean
value, `record.py`'s `gen_query` renders `cast(... as int)` (its
`guess_type` tests `int` before `bool`, and Python booleans are integers)
while `record_utils.py`'s `gen_query` renders `cast(... as boolean)` (its
`guess_type` tests booleans first). -/
theorem claim_C9_counterexample :
    Record.gen_query [] [] "" ["data"] [] [("data.flag", Val.bool true)] =
      .ok ("cast(data#>>\x27\x7bflag\x7d\x27 as int)=%s",
        [Val.bool true]) ∧
    RecordUtils.gen_query [] [] "" ["data"] []
        [("data.flag", Val.bool true)] =
      .ok ("cast(data#>>\x27\x7bflag\x7d\x27 as boolean)=%s",
        [Val.bool true]) :=
  ⟨rfl, rfl⟩

/-- C9 (amended): the equivalence of the two facades holds only away from
the JSON-path machinery: when no `json_keys` and no projection `keys` are
configured, `record.py`'s `gen_query` and `record_utils.py`'s `gen_query`
produce identical SQL text and identical argument tuples on every input
(for every raw-args list, sort keys, raw part_sql and filter mapping).
With JSON keys configured they can disagree, as `claim_C9_counterexample`
shows. -/
theorem claim_C9 :
    ∀ (args : List Val) (sort_keys : List String) (part_sql : String)
      (data : List (String × Val)),
      Record.gen_query args sort_keys part_sql [] [] data =
        RecordUtils.gen_query args sort_keys part_sql [] [] data := by
  intro args sort_keys part_sql data
  unfold Record.gen_query RecordUtils.gen_query
  have hf : (fun (q : List QItem) (kv : String × Val) =>
      Record.append_query q kv.1 kv.2 [] []) =
      fun (q : List QItem) (kv : String × Val) =>
        RecordUtils.append_query q kv.1 kv.2 [] [] :=
    funext fun q => funext fun kv => append_query_eq_nil q kv.1 kv.2
  rw [hf]


/-!
### Placeholder counting (C7)
-/

theorem psCountL_ps (l : List Char) :
    psCountL ('%' :: 's' :: l) = 1 + psCountL l := rfl

theorem psCountL_one (c : Char) : psCountL [c] = 0 := by
  rw [psCountL.eq_def]
  split
  · next rest heq => simp at heq
  · next hd rest hne heq =>
    injection heq with h1 h2
    rw [← h2]
    rfl
  · next heq => simp at heq

theorem psCountL_cons_ne (c d : Char) (l : List Char)
    (h : ¬(c = '%' ∧ d = 's')) :
    psCountL (c :: d :: l) = psCountL (d :: l) := by
  rw [psCountL.eq_def]
  split
  · next rest heq =>
    injection heq with h1 h2
    injection h2 with h3 h4
    exact absurd ⟨h1, h3⟩ h
  · next hd rest hne heq =>
    injection heq with h1 h2
    rw [← h2]
  · next heq => simp at heq

theorem psCountL_append_head (a b : List Char) (hb : b.head? ≠ some 's') :
    psCountL (a ++ b) = psCountL a + psCountL b := by
  induction a using psCountL.induct with
  | case1 rest ih =>
    rw [List.cons_append, List.cons_append, psCountL_ps, psCountL_ps, ih,
      Nat.add_assoc]
  | case2 c rest hex ih =>
    cases rest with
    | nil =>
      cases b with
      | nil => rfl
      | cons d bs =>
        have hd : d ≠ 's' := by simpa using hb
        rw [List.singleton_append, psCountL_cons_ne c d bs
          (fun hcd => hd hcd.2), psCountL_one]
        simp
    | cons d rs =>
      have hcd : ¬(c = '%' ∧ d = 's') := by
        rintro ⟨h1, h2⟩
        exact hex rs h1 (by rw [h2])
      rw [List.cons_append, List.cons_append,
        psCountL_cons_ne c d (rs ++ b) hcd, psCountL_cons_ne c d rs hcd,
        ← List.cons_append, ih]
  | case3 => simp [psCountL]

theorem psCountL_nopct_append (a b : List Char)
    (ha : ∀ c ∈ a, c ≠ '%') :
    psCountL (a ++ b) = psCountL b := by
  induction a with
  | nil => rfl
  | cons c rest ih =>
    have hc : c ≠ '%' := ha c (List.mem_cons_self c rest)
    have ha2 : ∀ x ∈ rest, x ≠ '%' :=
      fun x hx => ha x (List.mem_cons_of_mem c hx)
    cases hrb : rest ++ b with
    | nil =>
      have hb : b = [] := (List.append_eq_nil.mp hrb).2
      have hr : rest = [] := (List.append_eq_nil.mp hrb).1
      rw [List.cons_append, hrb, hb, psCountL_one]
      rfl
    | cons d l =>
      rw [List.cons_append, hrb,
        psCountL_cons_ne c d l (fun hcd => hc hcd.1), ← hrb, ih ha2]

theorem psCountL_nopct (a : List Char) (ha : ∀ c ∈ a, c ≠ '%') :
    psCountL a = 0 := by
  have h := psCountL_nopct_append a [] ha
  rw [List.append_nil] at h
  rw [h]
  rfl

theorem strChars_chStr (l : List Char) : strChars (chStr l) = l := rfl

theorem psCount_joinSep_and (cs : List String) :
    psCount (joinSep " AND " cs) = (cs.map psCount).sum := by
  induction cs with
  | nil => rfl
  | cons x rest ih =>
    cases rest with
    | nil => simp [joinSep, psCount]
    | cons y rs =>
      show psCount (x ++ " AND " ++ joinSep " AND " (y :: rs)) = _
      unfold psCount
      rw [strChars_append, strChars_append, List.append_assoc,
        psCountL_append_head (strChars x)
          (strChars " AND " ++ strChars (joinSep " AND " (y :: rs)))
          (by rw [show strChars " AND " ++
              strChars (joinSep " AND " (y :: rs)) =
              ' ' :: (strChars "AND " ++
                strChars (joinSep " AND " (y :: rs))) from rfl]
              simp),
        psCountL_nopct_append (strChars " AND ") _ (by decide)]
      unfold psCount at ih
      rw [ih]
      simp [psCount]

theorem psCountL_join_reps :
    ∀ (n : Nat) (tail : List Char),
      psCountL (strChars (joinSep ", " (List.replicate n "%s")) ++ tail) =
        n + psCountL tail
  | 0, tail => by
    show psCountL ([] ++ tail) = 0 + psCountL tail
    simp
  | 1, tail => by
    show psCountL ('%' :: 's' :: tail) = 1 + psCountL tail
    exact psCountL_ps tail
  | (n+2), tail => by
    rw [List.replicate_succ, List.replicate_succ]
    show psCountL (strChars ("%s" ++ ", " ++
      joinSep ", " ("%s" :: List.replicate n "%s")) ++ tail) = _
    rw [strChars_append, strChars_append, List.append_assoc,
      List.append_assoc]
    show psCountL ('%' :: 's' :: (strChars ", " ++
      (strChars (joinSep ", " ("%s" :: List.replicate n "%s")) ++ tail))) = _
    rw [psCountL_ps, psCountL_nopct_append (strChars ", ") _ (by decide),
      ← List.replicate_succ, psCountL_join_reps (n+1) tail]
    omega

theorem map_const_ps (vs : List Val) :
    vs.map (fun _ => ("%s" : String)) = List.replicate vs.length "%s" := by
  induction vs with
  | nil => rfl
  | cons v rest ih => simp [ih, List.replicate_succ]

theorem lookup_mem_pairs :
    ∀ (l : List (String × String)) (k v : String),
      l.lookup k = some v → (k, v) ∈ l := by
  intro l
  induction l with
  | nil => intro k v h; simp [List.lookup] at h
  | cons p rest ih =>
    intro k v h
    rw [List.lookup] at h
    by_cases hk : k = p.1
    · rw [show (k == p.1) = true by simpa using hk] at h
      injection h with h2
      have hkv : (k, v) = p := by rw [hk, ← h2]
      rw [hkv]
      exact List.mem_cons_self p rest
    · rw [show (k == p.1) = false by simpa using hk] at h
      right
      exact ih k v h

theorem op_map_vals_tame :
    ∀ p ∈ op_map, (∀ c ∈ strChars p.2, c ≠ '%') ∧
      (strChars p.2).head? ≠ some 's' := by decide

theorem opSql_tame (op : String) :
    (∀ c ∈ strChars ((op_map.lookup op).getD "="), c ≠ '%') ∧
      (strChars ((op_map.lookup op).getD "=")).head? ≠ some 's' := by
  cases h : op_map.lookup op with
  | none => simp [Option.getD]; decide
  | some v =>
    have hmem := lookup_mem_pairs op_map op v h
    have := op_map_vals_tame (op, v) hmem
    simpa [Option.getD] using this

theorem strDropRight_nopct (k : String) (n : Nat)
    (hk : ∀ c ∈ strChars k, c ≠ '%') :
    ∀ c ∈ strChars (strDropRight k n), c ≠ '%' := by
  intro c hc
  exact hk c (List.take_subset _ _ hc)

/-- The per-item contribution of one predicate triple's bound value to the
final argument tuple of `record_query_to_sql`. -/
def itemArgs : Val → List Val
  | Val.list vs => vs
  | Val.str s => if s == "__IGNORE__" then [] else [Val.str s]
  | v => [v]

theorem argCount_itemArgs (v : Val) : argCount v = (itemArgs v).length := by
  cases v with
  | str s =>
    unfold argCount itemArgs
    cases h : (s == "__IGNORE__") <;> simp [h]
  | null => rfl
  | int n => rfl
  | bool b => rfl
  | float t => rfl
  | list vs => simp [argCount, itemArgs]
  | dict d => rfl

/-- The preconditions of the parameter-binding invariant for one filter
entry: the value is a non-`__IGNORE__` scalar or a non-empty list, the
raw sub-select passthrough is not taken, and a non-string scalar does not
select the `in` operator (which would raise AttributeError). -/
def c7SafeVal (k : String) (v : Val) : Bool :=
  match v with
  | Val.list vs => !vs.isEmpty
  | Val.str s =>
      s != "__IGNORE__" &&
      (match re_op_search k with
       | some op =>
         if ((op_map.lookup op).getD "=") == " in "
         then !pyContains (pyLower s) "select"
         else true
       | none => true)
  | Val.int _ => appendSafe k v
  | Val.bool _ => appendSafe k v
  | Val.float _ => appendSafe k v
  | _ => false

theorem splitCh_map_ne_nil (s : String) :
    ((pySplitCh ',' s).map (fun p => Val.str (pyStrip p))).isEmpty = false := by
  cases h : pySplitCh ',' s with
  | nil => exact absurd h (pySplitCh_ne_nil ',' s)
  | cons a as => simp [h]

theorem append_query_list_c7 (q : List QItem) (k : String) (vs : List Val)
    (hk : ∀ c ∈ strChars k, c ≠ '%') (hvs : vs.isEmpty = false) :
    Record.append_query_list q k vs [] [] =
      .ok (q ++ [(k,
        k ++ " in (" ++ joinSep ", " (vs.map (fun _ => "%s")) ++ ")",
        Val.list vs)]) ∧
    psCount (k ++ " in (" ++ joinSep ", " (vs.map (fun _ => "%s")) ++ ")") =
      vs.length := by
  constructor
  · unfold Record.append_query_list
    rw [hvs]
    simp only [Bool.false_eq_true, if_false]
    rw [Record.format_key_nil]
  · unfold psCount
    rw [show k ++ " in (" ++ joinSep ", " (vs.map (fun _ => "%s")) ++ ")" =
      k ++ (" in (" ++ (joinSep ", " (vs.map (fun _ => "%s")) ++ ")")) by
      rw [strAppend_assoc, strAppend_assoc]]
    rw [strChars_append, strChars_append, strChars_append,
      psCountL_nopct_append (strChars k) _ hk,
      psCountL_nopct_append (strChars " in (") _ (by decide),
      map_const_ps, psCountL_join_reps vs.length (strChars ")")]
    rw [show psCountL (strChars ")") = 0 from rfl]
    omega

theorem append_query_c7 (q : List QItem) (k : String) (v : Val)
    (hk : ∀ c ∈ strChars k, c ≠ '%') (hsafe : c7SafeVal k v = true) :
    ∃ item : QItem,
      Record.append_query q k v [] [] = .ok (q ++ [item]) ∧
      psCount item.2.1 = argCount item.2.2 := by
  cases v with
  | null => simp [c7SafeVal] at hsafe
  | dict d => simp [c7SafeVal] at hsafe
  | list vs =>
    unfold c7SafeVal at hsafe
    dsimp only at hsafe
    have hvs : vs.isEmpty = false := by simpa using hsafe
    obtain ⟨heq, hcnt⟩ := append_query_list_c7 q k vs hk hvs
    refine ⟨(k, k ++ " in (" ++
      joinSep ", " (vs.map (fun _ => "%s")) ++ ")", Val.list vs), ?_, ?_⟩
    · unfold Record.append_query
      exact heq
    · rw [hcnt]
      rfl
  | str s =>
    unfold c7SafeVal at hsafe
    dsimp only at hsafe
    obtain ⟨hs1, hs2⟩ := Bool.and_eq_true_iff.mp hsafe
    have hsig : (s == "__IGNORE__") = false :=
      beq_eq_false_iff_ne.mpr (bne_iff_ne.mp hs1)
    unfold Record.append_query
    dsimp only
    cases hre : re_op_search k with
    | none =>
      dsimp only
      simp only [show (("=" : String) == " in ") = false from rfl,
        Bool.false_eq_true, if_false]
      rw [Record.format_key_nil]
      refine ⟨(k, k ++ "=" ++ "%s", Val.str s), rfl, ?_⟩
      show psCount (k ++ "=" ++ "%s") = argCount (Val.str s)
      rw [show argCount (Val.str s) = 1 by simp [argCount, hsig]]
      unfold psCount
      rw [show k ++ "=" ++ "%s" = k ++ ("=" ++ "%s") from
          strAppend_assoc k "=" "%s",
        strChars_append, psCountL_nopct_append (strChars k) _ hk]
      try dsimp only
      decide
    | some op =>
      rw [hre] at hs2
      dsimp only at hs2
      dsimp only
      have hk2 : ∀ c ∈ strChars (strDropRight k (op.length + 1)), c ≠ '%' :=
        strDropRight_nopct k (op.length + 1) hk
      cases hin : (((op_map.lookup op).getD "=") == " in ") with
      | true =>
        rw [hin] at hs2
        rw [if_pos rfl] at hs2
        simp only [hin, if_true]
        have hsel : pyContains (pyLower s) "select" = false := by
          simpa using hs2
        simp only [hsel, Bool.false_eq_true, if_false]
        have hvs := splitCh_map_ne_nil s
        obtain ⟨heq, hcnt⟩ := append_query_list_c7 q
          (strDropRight k (op.length + 1))
          ((pySplitCh ',' s).map (fun p => Val.str (pyStrip p))) hk2 hvs
        refine ⟨_, heq, ?_⟩
        rw [hcnt]
        simp [argCount]
      | false =>
        simp only [hin, Bool.false_eq_true, if_false]
        rw [Record.format_key_nil]
        refine ⟨_, rfl, ?_⟩
        show psCount (strDropRight k (op.length + 1) ++
          ((op_map.lookup op).getD "=") ++ "%s") = argCount (Val.str s)
        rw [show argCount (Val.str s) = 1 by simp [argCount, hsig]]
        unfold psCount
        rw [strAppend_assoc, strChars_append,
          psCountL_nopct_append _ _ hk2, strChars_append,
          psCountL_nopct_append _ _ (opSql_tame op).1]
        decide
  | int n =>
    unfold c7SafeVal at hsafe
    dsimp only at hsafe
    unfold appendSafe at hsafe
    dsimp only at hsafe
    unfold Record.append_query
    dsimp only
    cases hre : re_op_search k with
    | none =>
      dsimp only
      simp only [show (("=" : String) == " in ") = false from rfl,
        Bool.false_eq_true, if_false]
      rw [Record.format_key_nil]
      refine ⟨_, rfl, ?_⟩
      show psCount (k ++ "=" ++ "%s") = argCount (Val.int n)
      unfold psCount argCount
      rw [show k ++ "=" ++ "%s" = k ++ ("=" ++ "%s") from
          strAppend_assoc k "=" "%s",
        strChars_append, psCountL_nopct_append (strChars k) _ hk]
      try dsimp only
      decide
    | some op =>
      rw [hre] at hsafe
      dsimp only at hsafe
      dsimp only
      have hin : (((op_map.lookup op).getD "=") == " in ") = false :=
        beq_eq_false_iff_ne.mpr (bne_iff_ne.mp hsafe)
      simp only [hin, Bool.false_eq_true, if_false]
      rw [Record.format_key_nil]
      refine ⟨_, rfl, ?_⟩
      show psCount (strDropRight k (op.length + 1) ++
        ((op_map.lookup op).getD "=") ++ "%s") = argCount (Val.int n)
      unfold psCount argCount
      rw [strAppend_assoc, strChars_append,
        psCountL_nopct_append _ _ (strDropRight_nopct k (op.length + 1) hk),
        strChars_append, psCountL_nopct_append _ _ (opSql_tame op).1]
      try dsimp only
      decide
  | bool b =>
    unfold c7SafeVal at hsafe
    dsimp only at hsafe
    unfold appendSafe at hsafe
    dsimp only at hsafe
    unfold Record.append_query
    dsimp only
    cases hre : re_op_search k with
    | none =>
      dsimp only
      simp only [show (("=" : String) == " in ") = false from rfl,
        Bool.false_eq_true, if_false]
      rw [Record.format_key_nil]
      refine ⟨_, rfl, ?_⟩
      show psCount (k ++ "=" ++ "%s") = argCount (Val.bool b)
      unfold psCount argCount
      rw [show k ++ "=" ++ "%s" = k ++ ("=" ++ "%s") from
          strAppend_assoc k "=" "%s",
        strChars_append, psCountL_nopct_append (strChars k) _ hk]
      try dsimp only
      decide
    | some op =>
      rw [hre] at hsafe
      dsimp only at hsafe
      dsimp only
      have hin : (((op_map.lookup op).getD "=") == " in ") = false :=
        beq_eq_false_iff_ne.mpr (bne_iff_ne.mp hsafe)
      simp only [hin, Bool.false_eq_true, if_false]
      rw [Record.format_key_nil]
      refine ⟨_, rfl, ?_⟩
      show psCount (strDropRight k (op.length + 1) ++
        ((op_map.lookup op).getD "=") ++ "%s") = argCount (Val.bool b)
      unfold psCount argCount
      rw [strAppend_assoc, strChars_append,
        psCountL_nopct_append _ _ (strDropRight_nopct k (op.length + 1) hk),
        strChars_append, psCountL_nopct_append _ _ (opSql_tame op).1]
      try dsimp only
      decide
  | float t =>
    unfold c7SafeVal at hsafe
    dsimp only at hsafe
    unfold appendSafe at hsafe
    dsimp only at hsafe
    unfold Record.append_query
    dsimp only
    cases hre : re_op_search k with
    | none =>
      dsimp only
      simp only [show (("=" : String) == " in ") = false from rfl,
        Bool.false_eq_true, if_false]
      rw [Record.format_key_nil]
      refine ⟨_, rfl, ?_⟩
      show psCount (k ++ "=" ++ "%s") = argCount (Val.float t)
      unfold psCount argCount
      rw [show k ++ "=" ++ "%s" = k ++ ("=" ++ "%s") from
          strAppend_assoc k "=" "%s",
        strChars_append, psCountL_nopct_append (strChars k) _ hk]
      try dsimp only
      decide
    | some op =>
      rw [hre] at hsafe
      dsimp only at hsafe
      dsimp only
      have hin : (((op_map.lookup op).getD "=") == " in ") = false :=
        beq_eq_false_iff_ne.mpr (bne_iff_ne.mp hsafe)
      simp only [hin, Bool.false_eq_true, if_false]
      rw [Record.format_key_nil]
      refine ⟨_, rfl, ?_⟩
      show psCount (strDropRight k (op.length + 1) ++
        ((op_map.lookup op).getD "=") ++ "%s") = argCount (Val.float t)
      unfold psCount argCount
      rw [strAppend_assoc, strChars_append,
        psCountL_nopct_append _ _ (strDropRight_nopct k (op.length + 1) hk),
        strChars_append, psCountL_nopct_append _ _ (opSql_tame op).1]
      try dsimp only
      decide


theorem gen_query_c7_fold :
    ∀ (data : List (String × Val)) (q : List QItem),
      (∀ kv ∈ data, (∀ c ∈ strChars kv.1, c ≠ '%') ∧
        c7SafeVal kv.1 kv.2 = true) →
      ∃ items : List QItem,
        List.foldlM (fun q2 (kv : String × Val) =>
          Record.append_query q2 kv.1 kv.2 [] []) q data =
          .ok (q ++ items) ∧
        ∀ it ∈ items, psCount it.2.1 = argCount it.2.2
  | [], q, h => ⟨[], by
    rw [List.foldlM_nil, List.append_nil]
    rfl, by simp⟩
  | kv :: rest, q, h => by
    obtain ⟨hk, hsafe⟩ := h kv (List.mem_cons_self kv rest)
    obtain ⟨item, heq, hcnt⟩ := append_query_c7 q kv.1 kv.2 hk hsafe
    obtain ⟨items, heq2, hall⟩ := gen_query_c7_fold rest (q ++ [item])
      (fun kv2 hkv2 => h kv2 (List.mem_cons_of_mem kv hkv2))
    refine ⟨item :: items, ?_, ?_⟩
    · rw [List.foldlM_cons, heq]
      show List.foldlM (fun q2 (kv : String × Val) =>
          Record.append_query q2 kv.1 kv.2 [] []) (q ++ [item]) rest =
        Except.ok (q ++ item :: items)
      rw [heq2, List.append_assoc]
      rfl
    · intro it hit
      rcases List.mem_cons.mp hit with h1 | h2
      · rw [h1]
        exact hcnt
      · exact hall it h2

theorem rqts_foldl_args :
    ∀ (query : List QItem) (acc : List Val),
      query.foldl (fun acc2 q =>
        match q.2.2 with
        | Val.list vs => acc2 ++ vs
        | Val.str s => if s == "__IGNORE__" then acc2 else acc2 ++ [Val.str s]
        | v => acc2 ++ [v]) acc =
      acc ++ (query.map (fun it => itemArgs it.2.2)).flatten
  | [], acc => by simp
  | q :: rest, acc => by
    rw [List.foldl_cons, rqts_foldl_args rest _]
    have hstep : (match q.2.2 with
        | Val.list vs => acc ++ vs
        | Val.str s => if s == "__IGNORE__" then acc else acc ++ [Val.str s]
        | v => acc ++ [v]) = acc ++ itemArgs q.2.2 := by
      cases hv : q.2.2 with
      | str s =>
        dsimp only
        unfold itemArgs
        cases h : (s == "__IGNORE__") with
        | true => simp [h]
        | false => simp [h]
      | null => rfl
      | int n => rfl
      | bool b => rfl
      | float t => rfl
      | list vs => rfl
      | dict d => rfl
    rw [hstep, List.map_cons, List.flatten_cons, List.append_assoc]

theorem rqts_nil_shape (query : List QItem) :
    record_query_to_sql query "" [] =
      (joinSep " AND " (query.map (fun it => it.2.1)),
       (query.map (fun it => itemArgs it.2.2)).flatten) := by
  unfold record_query_to_sql
  dsimp only
  rw [show (("" : String) == "") = true from rfl]
  simp only [if_true]
  rw [rqts_foldl_args query [], List.nil_append, List.append_nil]

/-- C7 counterexample: the bound `__IGNORE__` sentinel string is a scalar
value in the original claim's scope, yet it breaks the placeholder/argument
correspondence: the clause keeps its `%s` placeholder while the argument
tuple drops the value, yielding one placeholder and zero arguments. -/
theorem claim_C7_counterexample :
    Record.gen_query [] [] "" [] [] [("name", Val.str "__IGNORE__")] =
      .ok ("name=%s", []) ∧ psCount "name=%s" = 1 := ⟨rfl, rfl⟩

/-- C7 (amended): for a filter mapping compiled with no configured
`json_keys` or projection `keys`, no raw trailing part_sql or args and no
sort keys, whose field names contain no `%` character, and whose values
satisfy `c7SafeVal` (non-`__IGNORE__` scalars or non-empty lists, no raw
sub-select passthrough, no `in`-operator on a non-string scalar),
`gen_query` succeeds and returns the AND-join of per-item clause fragments
together with the in-order concatenation of per-item argument lists; each
fragment carries exactly as many `%s` placeholders as the arguments its
item contributes (list values spliced element-wise in place, scalar values
appended), so the total placeholder count equals the argument-tuple
length.  Without the `__IGNORE__` exclusion the invariant fails
(`claim_C7_counterexample`). -/
theorem claim_C7 :
    ∀ (data : List (String × Val)),
      (∀ kv ∈ data, (∀ c ∈ strChars kv.1, c ≠ '%') ∧
        c7SafeVal kv.1 kv.2 = true) →
      ∃ items : List QItem,
        Record.gen_query [] [] "" [] [] data =
          .ok (joinSep " AND " (items.map (fun it => it.2.1)),
            (items.map (fun it => itemArgs it.2.2)).flatten) ∧
        (∀ it ∈ items, psCount it.2.1 = (itemArgs it.2.2).length) ∧
        psCount (joinSep " AND " (items.map (fun it => it.2.1))) =
          ((items.map (fun it => itemArgs it.2.2)).flatten).length := by
  intro data h
  obtain ⟨items, heq, hall⟩ := gen_query_c7_fold data [] h
  have hall2 : ∀ it ∈ items, psCount it.2.1 = (itemArgs it.2.2).length :=
    fun it hit => (hall it hit).trans (argCount_itemArgs it.2.2)
  refine ⟨items, ?_, hall2, ?_⟩
  · unfold Record.gen_query
    rw [heq]
    show Except.ok (record_query_to_sql (sort_query ([] ++ items) []) "" []) =
      _
    rw [List.nil_append, show sort_query items [] = items from rfl,
      rqts_nil_shape]
  · rw [psCount_joinSep_and, List.length_flatten, List.map_map, List.map_map]
    congr 1
    exact List.map_congr_left hall2


/-- C7 witness: a suffix-operator scalar filter plus a two-element list
filter satisfy the preconditions, so the compiled WHERE clause and
argument tuple obey the placeholder/argument correspondence. -/
theorem claim_C7_witness :
    ∃ items : List QItem,
      Record.gen_query [] [] "" [] []
        [("age_gte", Val.int 5), ("ids", Val.list [Val.int 1, Val.int 2])] =
        .ok (joinSep " AND " (items.map (fun it => it.2.1)),
          (items.map (fun it => itemArgs it.2.2)).flatten) ∧
      (∀ it ∈ items, psCount it.2.1 = (itemArgs it.2.2).length) ∧
      psCount (joinSep " AND " (items.map (fun it => it.2.1))) =
        ((items.map (fun it => itemArgs it.2.2)).flatten).length :=
  claim_C7
    [("age_gte", Val.int 5), ("ids", Val.list [Val.int 1, Val.int 2])]
    (by decide)

end PsqlUtils
